import Mathlib

/-!
Mock Tripay payment service.

A shallow embedding of `internal/services/payment_service.go` and
`internal/models/payment_models.go`, followed by the properties proved about it.

Conventions of the embedding.

* Go `float64` / `float32` values are represented by the rational number they denote;
  every floating-point operation is the exact rational operation followed by IEEE-754
  round-to-nearest-even (`fpRound`).  Overflow to infinity and NaN are not represented:
  they cannot arise from the operands this program produces.
* Go `int` is 64 bits wide (the constant `9000000000` passed to `rand.Intn` does not
  compile otherwise).  Values that come from a request are integers with the
  subtraction `amount - fee` wrapped to 64 bits; the statistics counters only ever
  grow by one per call and are kept as unbounded integers.
* `time.Time` is the number of nanoseconds since the Unix epoch, `time.Duration` a
  number of nanoseconds.
* Everything the code draws from its environment (clock readings, random numbers, the
  UUID) is an explicit argument of the operation that draws it.  Sleeping changes no
  state and is not represented beyond the duration `simulateDelay` computes.
* The transaction map holds pointers to records that are only reachable through the
  map, so it is modelled as a finite key/value list with in-place update.
* An operation is one atomic step on the engine state.  The background auto-payment a
  creation starts is a step of its own (`simulateAutoPayment`), which may fire for any
  reference at any time.  The locking of each function is described separately, by the
  sequence of mutex operations and shared accesses it performs.
-/

set_option maxRecDepth 100000

namespace MockTripay

/-! ## IEEE-754 arithmetic -/

/-- Binary logarithm by repeated halving; `fuel` bounds the number of halvings. -/
def log2Fuel : Nat → Nat → Nat
  | 0, _ => 0
  | fuel + 1, n => if n < 2 then 0 else log2Fuel fuel (n / 2) + 1

/-- Floor of the binary logarithm of a positive natural number. -/
def ilog2 (n : Nat) : Nat := log2Fuel n n

/-- The exponent `e` with `2 ^ e ≤ x < 2 ^ (e + 1)`, for positive `x`. -/
def floorLog2 (x : ℚ) : ℤ :=
  let k : ℤ := (ilog2 x.num.natAbs : ℤ) - (ilog2 x.den : ℤ)
  if (2 : ℚ) ^ k ≤ x then k else k - 1

/-- Nearest integer, ties to the even neighbour. -/
def roundHalfEven (x : ℚ) : ℤ :=
  let f := ⌊x⌋
  let r := x - f
  if r < 1 / 2 then f
  else if 1 / 2 < r then f + 1
  else if f % 2 = 0 then f else f + 1

/-- Round-to-nearest-even to a binary format with `prec` significant bits whose smallest
normal exponent is `emin` (below it the spacing is that of the subnormal numbers). -/
def fpRound (prec : ℕ) (emin : ℤ) (x : ℚ) : ℚ :=
  if x = 0 then 0
  else
    let u : ℚ := 2 ^ (max (floorLog2 |x|) emin - ((prec : ℤ) - 1))
    (if x < 0 then -1 else 1) * (roundHalfEven (|x| / u) : ℚ) * u

/-- Rounding to Go `float64` (binary64). -/
def f64Round (x : ℚ) : ℚ := fpRound 53 (-1022) x

/-- Rounding to Go `float32` (binary32). -/
def f32Round (x : ℚ) : ℚ := fpRound 24 (-126) x

/-- Spacing of the `float64` numbers around a positive `x`. -/
def ulp64 (x : ℚ) : ℚ := 2 ^ (max (floorLog2 x) (-1022) - 52)

/-- Go conversion `float64(n)` of an integer. -/
def f64OfInt (n : ℤ) : ℚ := f64Round n

/-- Go `x * y` on `float64`. -/
def f64Mul (x y : ℚ) : ℚ := f64Round (x * y)

/-- Go `x / y` on `float64`, for a non-zero divisor. -/
def f64Div (x y : ℚ) : ℚ := f64Round (x / y)

/-- Go conversion `int(x)` of a `float64`: the fraction is discarded (truncation towards
zero). -/
def truncToInt (x : ℚ) : ℤ := if 0 ≤ x then ⌊x⌋ else ⌈x⌉

/-- Two's-complement wrap of an integer to the range of a 64-bit Go `int`. -/
def wrapInt64 (x : ℤ) : ℤ := (x + 2 ^ 63) % 2 ^ 64 - 2 ^ 63

/-! ## `internal/models/payment_models.go` -/

/-- Go `time.Time`, in nanoseconds since the Unix epoch. -/
abbrev Time := ℤ

/-- Go `time.Duration`, in nanoseconds. -/
abbrev Duration := ℤ

/-- Go `Time.Unix`: whole seconds since the epoch. -/
def Time.Unix (t : Time) : ℤ := t / 1000000000

/-- Go `Duration.Milliseconds`. -/
def Duration.Milliseconds (d : Duration) : ℤ := Int.tdiv d 1000000

structure OrderItem where
  SKU : String
  Name : String
  Price : ℤ
  Quantity : ℤ
  ProductURL : String
  ImageURL : String
  deriving DecidableEq

structure CreateTransactionRequest where
  Method : String
  MerchantRef : String
  Amount : ℤ
  CustomerName : String
  CustomerEmail : String
  CustomerPhone : String
  OrderItems : List OrderItem
  ReturnURL : String
  ExpiredTime : ℤ
  Signature : String
  deriving DecidableEq

structure TransactionData where
  Reference : String
  MerchantRef : String
  PaymentSelectionType : String
  PaymentMethod : String
  PaymentName : String
  CustomerName : String
  CustomerEmail : String
  CustomerPhone : String
  CallbackURL : String
  ReturnURL : String
  Amount : ℤ
  Fee : ℤ
  TotalFee : ℤ
  AmountReceived : ℤ
  PayCode : String
  PayURL : String
  CheckoutURL : String
  Status : String
  ExpiredTime : ℤ
  OrderItems : List OrderItem
  CreatedAt : Time
  UpdatedAt : Time
  deriving DecidableEq

structure TransactionDetailData where
  Reference : String
  MerchantRef : String
  PaymentMethod : String
  PaymentName : String
  CustomerName : String
  CustomerEmail : String
  CustomerPhone : String
  Amount : ℤ
  Fee : ℤ
  TotalFee : ℤ
  AmountReceived : ℤ
  Status : String
  PaidAt : Option Time
  CreatedAt : Time
  UpdatedAt : Time
  deriving DecidableEq

/-- The two-entry fee maps of a channel (`"flat"` and `"percent"`). -/
structure FeeMap where
  flat : ℤ
  percent : ℚ
  deriving DecidableEq

/-- A catalogue entry; `ChannelType` is the Go field `Type`. -/
structure PaymentChannel where
  Group : String
  Code : String
  Name : String
  ChannelType : String
  FeeMerchant : FeeMap
  FeeCustomer : FeeMap
  TotalFee : FeeMap
  MinimumFee : ℤ
  MaximumFee : ℤ
  IconURL : String
  Active : Bool
  deriving DecidableEq

structure MockStats where
  TotalRequests : ℤ
  SuccessRequests : ℤ
  FailureRequests : ℤ
  SuccessRate : ℚ
  TotalTransactions : ℤ
  PaidTransactions : ℤ
  AvgResponseTime : ℤ
  deriving DecidableEq

/-- The dynamic `Data` payload of a response. -/
inductive ResponseData where
  | nil
  | transaction (d : TransactionData)
  | detail (d : TransactionDetailData)
  | channels (cs : List PaymentChannel)
  | stats (m : MockStats)
  deriving DecidableEq

structure APIResponse where
  Success : Bool
  Message : String
  Data : ResponseData
  deriving DecidableEq

/-! ## `internal/services/payment_service.go` -/

/-- The map `transactions`, from reference to record. -/
abbrev Store := List (String × TransactionDetailData)

/-- Map lookup `m[k]`. -/
def Store.get : Store → String → Option TransactionDetailData
  | [], _ => none
  | (k', v) :: rest, k => if k' = k then some v else Store.get rest k

/-- Map assignment `m[k] = v`, also used for a write through the stored pointer. -/
def Store.set : Store → String → TransactionDetailData → Store
  | [], k, v => [(k, v)]
  | (k', v') :: rest, k, v =>
    if k' = k then (k, v) :: rest else (k', v') :: Store.set rest k v

structure PaymentService where
  transactions : Store
  stats : MockStats
  successRate : ℚ
  avgResponseTime : Duration
  autoPayDelay : Duration
  deriving DecidableEq

def NewPaymentService : PaymentService where
  transactions := []
  stats := ⟨0, 0, 0, 0, 0, 0, 0⟩
  successRate := f32Round (999 / 1000)
  avgResponseTime := 100 * 1000000
  autoPayDelay := 30 * 1000000000

/-- The duration `simulateDelay` sleeps for; `roll` is the value of `rand.Intn(20)`. -/
def simulateDelay (s : PaymentService) (roll : ℕ) : Duration :=
  s.avgResponseTime + (roll : ℤ) * 1000000

/-- The reference built from the clock reading and the UUID string drawn by the call. -/
def generateReference (now : Time) (uuid : String) : String :=
  "T" ++ toString (Time.Unix now) ++ String.mk (uuid.data.take 8)

def calculateFee (amount : ℤ) (method : String) : ℤ :=
  match method with
  | "QRIS" => truncToInt (f64Mul (f64OfInt amount) (f64Round (7 / 1000)))
  | "BRIVA" | "BCAVA" | "MANDIRIVA" => 4000
  | "ALFAMART" | "INDOMARET" => 2500
  | _ => truncToInt (f64Mul (f64OfInt amount) (f64Round (1 / 100)))

def getPaymentName (method : String) : String :=
  match method with
  | "QRIS" => "QRIS"
  | "BRIVA" => "BRI Virtual Account"
  | "BCAVA" => "BCA Virtual Account"
  | "MANDIRIVA" => "Mandiri Virtual Account"
  | "ALFAMART" => "Alfamart"
  | "INDOMARET" => "Indomaret"
  | _ => "Unknown Payment Method"

/-- The pay code; `intn n` is the value `rand.Intn(n)` returns to this call. -/
def generatePayCode (intn : ℕ → ℕ) (method : String) : String :=
  match method with
  | "QRIS" => ""
  | "BRIVA" | "BCAVA" | "MANDIRIVA" => Nat.repr (intn 9000000000 + 1000000000)
  | "ALFAMART" | "INDOMARET" => Nat.repr (intn 900000000 + 100000000)
  | _ => Nat.repr (intn 9000 + 1000)

/-- The state after the body of `simulateAutoPayment` has run, once its sleep is over;
`now` is the clock reading taken inside the critical section. -/
def simulateAutoPayment (s : PaymentService) (reference : String) (now : Time) :
    PaymentService :=
  match s.transactions.get reference with
  | none => s
  | some transaction =>
    if transaction.Status ≠ "UNPAID" then s
    else
      { s with
        transactions := s.transactions.set reference
          { transaction with Status := "PAID", PaidAt := some now, UpdatedAt := now }
        stats := { s.stats with PaidTransactions := s.stats.PaidTransactions + 1 } }

def updateStats (s : PaymentService) (duration : Duration) (success : Bool) :
    PaymentService :=
  { s with
    stats :=
      { s.stats with
        TotalRequests := s.stats.TotalRequests + 1
        SuccessRequests :=
          if success then s.stats.SuccessRequests + 1 else s.stats.SuccessRequests
        FailureRequests :=
          if success then s.stats.FailureRequests else s.stats.FailureRequests + 1
        AvgResponseTime :=
          Int.tdiv (s.stats.AvgResponseTime + Duration.Milliseconds duration) 2 } }

/-- What one call of `CreateTransaction` reads from the clock, the random source and the
UUID generator, in program order. -/
structure CreateEnv where
  /-- Value of `rand.Intn(20)` in `simulateDelay`. -/
  delayRoll : ℕ
  /-- Value of `rand.Float32()` in the failure roll. -/
  failRoll : ℚ
  /-- Value of `time.Since(start)` in the failure branch. -/
  failSince : Duration
  /-- Value of `time.Now()` in `generateReference`. -/
  refNow : Time
  /-- Value of `uuid.New().String()`. -/
  uuid : String
  /-- Value of `time.Now()` stored in `CreatedAt`. -/
  createdAt : Time
  /-- Value of `time.Now()` stored in `UpdatedAt`. -/
  updatedAt : Time
  /-- Values of `rand.Intn` as seen by `generatePayCode`. -/
  intn : ℕ → ℕ
  /-- Value of `time.Since(start)` in the deferred `updateStats`. -/
  deferSince : Duration

/-- The engine state after the call (deferred `updateStats` included) and the response.
The `error` result of the Go function is `nil` on every path and is left out; the
background `simulateAutoPayment` the call starts is a separate step of the system. -/
def CreateTransaction (s : PaymentService) (req : CreateTransactionRequest)
    (env : CreateEnv) : PaymentService × APIResponse :=
  if env.failRoll > s.successRate then
    let s1 := updateStats s env.failSince false
    (updateStats s1 env.deferSince true,
      { Success := false
        Message := "Payment gateway temporarily unavailable"
        Data := .nil })
  else
    let reference := generateReference env.refNow env.uuid
    let fee := calculateFee req.Amount req.Method
    let amountReceived := wrapInt64 (req.Amount - fee)
    let transactionDetail : TransactionDetailData :=
      { Reference := reference
        MerchantRef := req.MerchantRef
        PaymentMethod := req.Method
        PaymentName := getPaymentName req.Method
        CustomerName := req.CustomerName
        CustomerEmail := req.CustomerEmail
        CustomerPhone := req.CustomerPhone
        Amount := req.Amount
        Fee := fee
        TotalFee := fee
        AmountReceived := amountReceived
        Status := "UNPAID"
        PaidAt := none
        CreatedAt := env.createdAt
        UpdatedAt := env.updatedAt }
    let s1 : PaymentService :=
      { s with
        transactions := s.transactions.set reference transactionDetail
        stats := { s.stats with TotalTransactions := s.stats.TotalTransactions + 1 } }
    let responseData : TransactionData :=
      { Reference := reference
        MerchantRef := req.MerchantRef
        PaymentSelectionType := "static"
        PaymentMethod := req.Method
        PaymentName := getPaymentName req.Method
        CustomerName := req.CustomerName
        CustomerEmail := req.CustomerEmail
        CustomerPhone := req.CustomerPhone
        CallbackURL := ""
        ReturnURL := req.ReturnURL
        Amount := req.Amount
        Fee := fee
        TotalFee := fee
        AmountReceived := amountReceived
        PayCode := generatePayCode env.intn req.Method
        PayURL := "mock://tripay.com/pay/" ++ reference
        CheckoutURL := "mock://tripay.com/checkout/" ++ reference
        Status := "UNPAID"
        ExpiredTime := req.ExpiredTime
        OrderItems := req.OrderItems
        CreatedAt := transactionDetail.CreatedAt
        UpdatedAt := transactionDetail.UpdatedAt }
    (updateStats s1 env.deferSince true,
      { Success := true
        Message := "Transaction created"
        Data := .transaction responseData })

/-- The engine state after the call and the response; `since` is `time.Since(start)` in
the deferred `updateStats`.  The `error` result is `nil` on every path. -/
def GetTransactionDetail (s : PaymentService) (reference : String) (since : Duration) :
    PaymentService × APIResponse :=
  match s.transactions.get reference with
  | none =>
    (updateStats s since true,
      { Success := false, Message := "Transaction not found", Data := .nil })
  | some transaction =>
    (updateStats s since true,
      { Success := true, Message := "Get transaction success", Data := .detail transaction })

/-- The static catalogue returned by `GetPaymentChannels`. -/
def paymentChannels : List PaymentChannel :=
  [ { Group := "Virtual Account"
      Code := "BRIVA"
      Name := "BRI Virtual Account"
      ChannelType := "virtual_account"
      FeeMerchant := ⟨4000, 0⟩
      FeeCustomer := ⟨0, 0⟩
      TotalFee := ⟨4000, 0⟩
      MinimumFee := 0
      MaximumFee := 0
      IconURL := "https://tripay.co.id/images/payment_icon/bri.png"
      Active := true },
    { Group := "E-Wallet"
      Code := "QRIS"
      Name := "QRIS"
      ChannelType := "qr_code"
      FeeMerchant := ⟨0, f64Round (7 / 10)⟩
      FeeCustomer := ⟨0, 0⟩
      TotalFee := ⟨0, f64Round (7 / 10)⟩
      MinimumFee := 0
      MaximumFee := 0
      IconURL := "https://tripay.co.id/images/payment_icon/qris.png"
      Active := true },
    { Group := "Convenience Store"
      Code := "ALFAMART"
      Name := "Alfamart"
      ChannelType := "convenience_store"
      FeeMerchant := ⟨2500, 0⟩
      FeeCustomer := ⟨0, 0⟩
      TotalFee := ⟨2500, 0⟩
      MinimumFee := 0
      MaximumFee := 0
      IconURL := "https://tripay.co.id/images/payment_icon/alfamart.png"
      Active := true } ]

def GetPaymentChannels (s : PaymentService) : PaymentService × APIResponse :=
  (s, { Success := true
        Message := "Get payment channels success"
        Data := .channels paymentChannels })

/-- The response carries the pointer `s.stats`, that is, the statistics as they are after
the success rate has been refreshed. -/
def GetStats (s : PaymentService) : PaymentService × APIResponse :=
  let stats : MockStats :=
    if s.stats.TotalRequests > 0 then
      { s.stats with
        SuccessRate :=
          f64Div (f64OfInt s.stats.SuccessRequests) (f64OfInt s.stats.TotalRequests) }
    else s.stats
  ({ s with stats := stats },
    { Success := true, Message := "Mock server statistics", Data := .stats stats })

def ResetData (s : PaymentService) : PaymentService × APIResponse :=
  ({ s with transactions := [], stats := ⟨0, 0, 0, 0, 0, 0, 0⟩ },
    { Success := true, Message := "Mock data reset successfully", Data := .nil })

/-! ## Requests the HTTP boundary lets through, and reachable engine states -/

/-- The binding `min=1` on `Amount`, and the range of a Go `int`. -/
def ValidRequest (req : CreateTransactionRequest) : Prop :=
  1 ≤ req.Amount ∧ req.Amount < 2 ^ 63

instance (req : CreateTransactionRequest) : Decidable (ValidRequest req) := by
  unfold ValidRequest; infer_instance

/-- Engine states reachable from `NewPaymentService` by the five operations and by
firings of the background auto-payment (for any reference, at any time). -/
inductive Reachable : PaymentService → Prop where
  | init : Reachable NewPaymentService
  | create {s : PaymentService} (req : CreateTransactionRequest) (env : CreateEnv) :
      Reachable s → ValidRequest req → Reachable (CreateTransaction s req env).1
  | detail {s : PaymentService} (reference : String) (since : Duration) :
      Reachable s → Reachable (GetTransactionDetail s reference since).1
  | channels {s : PaymentService} : Reachable s → Reachable (GetPaymentChannels s).1
  | stats {s : PaymentService} : Reachable s → Reachable (GetStats s).1
  | reset {s : PaymentService} : Reachable s → Reachable (ResetData s).1
  | autoPay {s : PaymentService} (reference : String) (now : Time) :
      Reachable s → Reachable (simulateAutoPayment s reference now)

/-- Number of stored records whose status is PAID. -/
def Store.paidCount : Store → ℕ
  | [] => 0
  | (_, v) :: rest => (if v.Status = "PAID" then 1 else 0) + Store.paidCount rest

/-- Engine states reachable from `NewPaymentService` when every successful creation draws
a reference that is not yet a key of the store; failed creations, lookups, catalogue and
statistics reads, resets and auto-payment firings (for any reference, at any time) are
unrestricted, and so is the request of a creation. -/
inductive ReachableFresh : PaymentService → Prop where
  | init : ReachableFresh NewPaymentService
  | createOk {s : PaymentService} (req : CreateTransactionRequest) (env : CreateEnv) :
      ReachableFresh s → ¬ env.failRoll > s.successRate →
      s.transactions.get (generateReference env.refNow env.uuid) = none →
      ReachableFresh (CreateTransaction s req env).1
  | createFail {s : PaymentService} (req : CreateTransactionRequest) (env : CreateEnv) :
      ReachableFresh s → env.failRoll > s.successRate →
      ReachableFresh (CreateTransaction s req env).1
  | detail {s : PaymentService} (reference : String) (since : Duration) :
      ReachableFresh s → ReachableFresh (GetTransactionDetail s reference since).1
  | channels {s : PaymentService} :
      ReachableFresh s → ReachableFresh (GetPaymentChannels s).1
  | stats {s : PaymentService} : ReachableFresh s → ReachableFresh (GetStats s).1
  | reset {s : PaymentService} : ReachableFresh s → ReachableFresh (ResetData s).1
  | autoPay {s : PaymentService} (reference : String) (now : Time) :
      ReachableFresh s → ReachableFresh (simulateAutoPayment s reference now)

/-! ## Lock discipline

Each function is also described by the sequence of operations it performs on the mutex
`s.mutex` and on the shared fields, in program order (a deferred unlock comes last).  The
branches are those of the functions above.  A read is recorded for a map lookup and for
the fields a guard or a computation reads; an increment or an update of a field in place
is recorded as one write.  The configuration fields are never written after construction
and are not recorded. -/

/-- One operation of a goroutine on the mutex or on shared state. -/
inductive Event where
  | Lock
  | Unlock
  | RLock
  | RUnlock
  | read (location : String)
  | write (location : String)
  deriving DecidableEq

/-- How the running goroutine holds `s.mutex`. -/
inductive Held where
  | none
  | shared
  | exclusive
  deriving DecidableEq

/-- The hold on the mutex after an event. -/
def Held.after : Held → Event → Held
  | _, .Lock => .exclusive
  | _, .RLock => .shared
  | _, .Unlock => .none
  | _, .RUnlock => .none
  | h, .read _ => h
  | h, .write _ => h

/-- Every write of the sequence happens while the write lock is held. -/
def writesUnderLock : Held → List Event → Bool
  | _, [] => true
  | h, .write _ :: rest => decide (h = .exclusive) && writesUnderLock h rest
  | h, e :: rest => writesUnderLock (h.after e) rest

/-- Every read and write of the sequence happens while the mutex is held in some mode. -/
def accessesUnderLock : Held → List Event → Bool
  | _, [] => true
  | h, .write l :: rest => decide (h ≠ .none) && accessesUnderLock (h.after (.write l)) rest
  | h, .read l :: rest => decide (h ≠ .none) && accessesUnderLock (h.after (.read l)) rest
  | h, e :: rest => accessesUnderLock (h.after e) rest

/-- Number of times the sequence acquires the mutex. -/
def acquisitions : List Event → ℕ
  | [] => 0
  | .Lock :: rest => acquisitions rest + 1
  | .RLock :: rest => acquisitions rest + 1
  | _ :: rest => acquisitions rest

def updateStatsEvents (success : Bool) : List Event :=
  [.Lock, .write "stats.TotalRequests",
    if success then .write "stats.SuccessRequests" else .write "stats.FailureRequests",
    .write "stats.AvgResponseTime", .Unlock]

def CreateTransactionEvents (s : PaymentService) (env : CreateEnv) : List Event :=
  if env.failRoll > s.successRate then
    updateStatsEvents false ++ updateStatsEvents true
  else
    [.Lock, .write "transactions[reference]", .write "stats.TotalTransactions", .Unlock]
      ++ updateStatsEvents true

def GetTransactionDetailEvents : List Event :=
  [.RLock, .read "transactions[reference]", .RUnlock] ++ updateStatsEvents true

def GetPaymentChannelsEvents : List Event := []

def GetStatsEvents (s : PaymentService) : List Event :=
  [.RLock, .read "stats.TotalRequests"]
    ++ (if s.stats.TotalRequests > 0 then
          [.read "stats.SuccessRequests", .read "stats.TotalRequests",
            .write "stats.SuccessRate"]
        else [])
    ++ [.RUnlock]

def ResetDataEvents : List Event :=
  [.Lock, .write "transactions", .write "stats", .Unlock]

def simulateAutoPaymentEvents (s : PaymentService) (reference : String) : List Event :=
  [.Lock, .read "transactions[reference]"]
    ++ (match s.transactions.get reference with
        | none => []
        | some transaction =>
          .read "transaction.Status" ::
            (if transaction.Status ≠ "UNPAID" then []
             else
              [.write "transaction.Status", .write "transaction.PaidAt",
                .write "transaction.UpdatedAt", .write "stats.PaidTransactions"]))
    ++ [.Unlock]

/-! ## Concrete inputs used to exercise the model -/

def sampleRequest : CreateTransactionRequest where
  Method := "QRIS"
  MerchantRef := "INV-001"
  Amount := 100000
  CustomerName := "Budi"
  CustomerEmail := "budi@example.com"
  CustomerPhone := "081234567890"
  OrderItems := []
  ReturnURL := ""
  ExpiredTime := 1700003600
  Signature := ""

/-- A call whose failure roll (0.5) does not exceed the success rate. -/
def sampleEnv : CreateEnv where
  delayRoll := 7
  failRoll := 1 / 2
  failSince := 107000000
  refNow := 1700000000123456789
  uuid := "abcdef01-1111-4111-8111-111111111111"
  createdAt := 1700000000123460000
  updatedAt := 1700000000123461000
  intn := fun _ => 0
  deferSince := 107200000

/-- A second call in the same second whose UUID differs from that of `sampleEnv` but
shares its first eight characters. -/
def collidingEnv : CreateEnv where
  delayRoll := 3
  failRoll := 1 / 4
  failSince := 103000000
  refNow := 1700000000987654321
  uuid := "abcdef01-2222-4222-8222-222222222222"
  createdAt := 1700000000987660000
  updatedAt := 1700000000987661000
  intn := fun _ => 0
  deferSince := 103100000

/-- A call whose failure roll (4095/4096, a `float32`) exceeds the success rate. -/
def failingEnv : CreateEnv where
  delayRoll := 5
  failRoll := 4095 / 4096
  failSince := 105000000
  refNow := 1700000001000000000
  uuid := "0badc0de-3333-4333-8333-333333333333"
  createdAt := 1700000001000000000
  updatedAt := 1700000001000000000
  intn := fun _ => 0
  deferSince := 105100000

/-- The engine after one successful creation on a fresh service. -/
def stateAfterCreate : PaymentService :=
  (CreateTransaction NewPaymentService sampleRequest sampleEnv).1

/-- The engine after that creation and the firing of its auto-payment. -/
def stateAfterPayment : PaymentService :=
  simulateAutoPayment stateAfterCreate "T1700000000abcdef01" 1700000030123460000

/-- The record that creation stores. -/
def sampleRecord : TransactionDetailData where
  Reference := "T1700000000abcdef01"
  MerchantRef := "INV-001"
  PaymentMethod := "QRIS"
  PaymentName := "QRIS"
  CustomerName := "Budi"
  CustomerEmail := "budi@example.com"
  CustomerPhone := "081234567890"
  Amount := 100000
  Fee := 700
  TotalFee := 700
  AmountReceived := 99300
  Status := "UNPAID"
  PaidAt := none
  CreatedAt := 1700000000123460000
  UpdatedAt := 1700000000123461000

/-- The record returned by a creation on `stateAfterCreate` with `collidingEnv`. -/
def collidingResponse : TransactionData where
  Reference := "T1700000000abcdef01"
  MerchantRef := "INV-001"
  PaymentSelectionType := "static"
  PaymentMethod := "QRIS"
  PaymentName := "QRIS"
  CustomerName := "Budi"
  CustomerEmail := "budi@example.com"
  CustomerPhone := "081234567890"
  CallbackURL := ""
  ReturnURL := ""
  Amount := 100000
  Fee := 700
  TotalFee := 700
  AmountReceived := 99300
  PayCode := ""
  PayURL := "mock://tripay.com/pay/T1700000000abcdef01"
  CheckoutURL := "mock://tripay.com/checkout/T1700000000abcdef01"
  Status := "UNPAID"
  ExpiredTime := 1700003600
  OrderItems := []
  CreatedAt := 1700000000987660000
  UpdatedAt := 1700000000987661000

/-! ## The record invariant of the data model -/

def RecordConsistent (r : TransactionDetailData) : Prop :=
  r.AmountReceived = r.Amount - r.Fee
    ∧ (r.Status = "UNPAID" ∨ r.Status = "PAID")
    ∧ (r.Status = "PAID" → r.PaidAt ≠ none)
    ∧ (r.Status = "UNPAID" → r.PaidAt = none)

/-- The engine after one lookup of an unknown reference on a fresh service. -/
def stateAfterLookup : PaymentService :=
  (GetTransactionDetail NewPaymentService "T0000000000deadbeef" 104000000).1

/-! ## The counter invariant of the statistics -/

def StatsConsistent (m : MockStats) : Prop :=
  0 ≤ m.SuccessRequests ∧ 0 ≤ m.FailureRequests
    ∧ m.TotalRequests = m.SuccessRequests + m.FailureRequests
    ∧ (m.TotalRequests = 0 → m.SuccessRate = 0)

/-! ## Shape of a pay code -/

/-- The string `s` consists of exactly `n` decimal digits and does not start with a
zero (so it carries no sign either). -/
def IsDecimalCode (s : String) (n : ℕ) : Prop :=
  s.length = n ∧ (∀ c ∈ s.data, c.isDigit = true) ∧ s.data.head? ≠ some '0'

/-! ## Properties of the floating-point operations -/

theorem log2Fuel_spec : ∀ (fuel n : Nat), n ≤ fuel → 0 < n →
    2 ^ log2Fuel fuel n ≤ n ∧ n < 2 ^ (log2Fuel fuel n + 1) := by
  intro fuel
  induction fuel with
  | zero => intro n h1 h2; omega
  | succ fuel ih =>
    intro n hle hpos
    unfold log2Fuel
    split_ifs with h
    · simp; omega
    · have h2 : n / 2 ≤ fuel := by omega
      have h3 : 0 < n / 2 := by omega
      obtain ⟨a, b⟩ := ih (n / 2) h2 h3
      rw [pow_succ] at b ⊢
      rw [pow_succ]
      constructor <;> omega

theorem ilog2_spec (n : Nat) (hn : 0 < n) : 2 ^ ilog2 n ≤ n ∧ n < 2 ^ (ilog2 n + 1) :=
  log2Fuel_spec n n le_rfl hn

theorem floorLog2_spec (x : ℚ) (hx : 0 < x) :
    (2 : ℚ) ^ floorLog2 x ≤ x ∧ x < (2 : ℚ) ^ (floorLog2 x + 1) := by
  have hnum : 0 < x.num := Rat.num_pos.mpr hx
  have hp : 0 < x.num.natAbs := Int.natAbs_pos.mpr hnum.ne'
  have hq : 0 < x.den := x.den_pos
  obtain ⟨p1, p2⟩ := ilog2_spec _ hp
  obtain ⟨q1, q2⟩ := ilog2_spec _ hq
  have hxeq : x = (x.num.natAbs : ℚ) / (x.den : ℚ) := by
    have h2 : ((x.num.natAbs : ℕ) : ℚ) = (x.num : ℚ) := by
      rw [← Int.cast_natCast, Int.natAbs_of_nonneg hnum.le]
    rw [h2]
    exact (Rat.num_div_den x).symm
  set p := x.num.natAbs with hpdef
  set q := x.den with hqdef
  have hqQ : (0 : ℚ) < q := by exact_mod_cast hq
  have P1 : (2 : ℚ) ^ (ilog2 p) ≤ p := by exact_mod_cast p1
  have P2 : (p : ℚ) < 2 ^ (ilog2 p + 1) := by exact_mod_cast p2
  have Q1 : (2 : ℚ) ^ (ilog2 q) ≤ q := by exact_mod_cast q1
  have Q2 : (q : ℚ) < 2 ^ (ilog2 q + 1) := by exact_mod_cast q2
  have h2lp : (0 : ℚ) < 2 ^ (ilog2 p) := by positivity
  have h2lq : (0 : ℚ) < 2 ^ (ilog2 q) := by positivity
  have hk : (2 : ℚ) ^ ((ilog2 p : ℤ) - (ilog2 q : ℤ)) = 2 ^ (ilog2 p) / 2 ^ (ilog2 q) := by
    rw [zpow_sub₀ (by norm_num : (2 : ℚ) ≠ 0), zpow_natCast, zpow_natCast]
  unfold floorLog2
  simp only
  rw [← hpdef, ← hqdef]
  split_ifs with h
  · refine ⟨h, ?_⟩
    rw [zpow_add_one₀ (by norm_num : (2 : ℚ) ≠ 0), hk, hxeq, div_lt_iff₀ hqQ]
    rw [pow_succ] at P2
    calc (p : ℚ) < 2 ^ ilog2 p * 2 := P2
      _ = 2 ^ ilog2 p / 2 ^ ilog2 q * 2 * 2 ^ ilog2 q := by field_simp
      _ ≤ 2 ^ ilog2 p / 2 ^ ilog2 q * 2 * q := by
          apply mul_le_mul_of_nonneg_left Q1
          positivity
  · refine ⟨?_, ?_⟩
    · rw [zpow_sub_one₀ (by norm_num : (2 : ℚ) ≠ 0), hk, hxeq, le_div_iff₀ hqQ]
      rw [pow_succ] at Q2
      calc 2 ^ ilog2 p / 2 ^ ilog2 q * 2⁻¹ * (q : ℚ)
          ≤ 2 ^ ilog2 p / 2 ^ ilog2 q * 2⁻¹ * (2 ^ ilog2 q * 2) := by
            apply mul_le_mul_of_nonneg_left Q2.le
            positivity
        _ = 2 ^ ilog2 p := by field_simp
        _ ≤ p := P1
    · rw [sub_add_cancel]
      exact lt_of_not_le h



theorem roundHalfEven_floor_le (y : ℚ) : ⌊y⌋ ≤ roundHalfEven y := by
  unfold roundHalfEven
  simp only
  split_ifs <;> omega

theorem roundHalfEven_le (y : ℚ) : (roundHalfEven y : ℚ) ≤ y + 1 / 2 := by
  have h1 := Int.floor_le y
  unfold roundHalfEven
  simp only
  split_ifs with a b c
  · linarith
  · push_cast; linarith
  · linarith
  · push_cast
    have : y - ⌊y⌋ = 1 / 2 := le_antisymm (not_lt.mp b) (not_lt.mp a)
    linarith

theorem roundHalfEven_ge (y : ℚ) : y - 1 / 2 ≤ (roundHalfEven y : ℚ) := by
  have h1 := Int.lt_floor_add_one y
  unfold roundHalfEven
  simp only
  split_ifs with a b c
  · linarith
  · push_cast; linarith
  · have : y - ⌊y⌋ = 1 / 2 := le_antisymm (not_lt.mp b) (not_lt.mp a)
    linarith
  · push_cast; linarith

theorem roundHalfEven_intCast (n : ℤ) : roundHalfEven (n : ℚ) = n := by
  unfold roundHalfEven
  simp

theorem fpRound_pos (prec : ℕ) (emin : ℤ) (x : ℚ) (hx : 0 < x) :
    fpRound prec emin x =
      (roundHalfEven (x / 2 ^ (max (floorLog2 x) emin - ((prec : ℤ) - 1))) : ℚ)
        * 2 ^ (max (floorLog2 x) emin - ((prec : ℤ) - 1)) := by
  unfold fpRound
  rw [if_neg hx.ne', if_neg (not_lt.mpr hx.le), abs_of_pos hx]
  simp

theorem two_zpow_pos (k : ℤ) : (0 : ℚ) < 2 ^ k := zpow_pos (by norm_num) k

theorem two_zpow_le {a b : ℤ} (h : a ≤ b) : (2 : ℚ) ^ a ≤ 2 ^ b :=
  zpow_le_zpow_right₀ (by norm_num) h

theorem lt_of_two_zpow_lt {a b : ℤ} (h : (2 : ℚ) ^ a < 2 ^ b) : a < b := by
  by_contra hc
  exact absurd (two_zpow_le (not_lt.mp hc)) (not_le.mpr h)

/-- A power of two with non-negative exponent is an integer. -/
theorem two_zpow_eq_intCast {k : ℤ} (hk : 0 ≤ k) : (2 : ℚ) ^ k = ((2 ^ k.toNat : ℤ) : ℚ) := by
  obtain ⟨n, rfl⟩ := Int.eq_ofNat_of_zero_le hk
  simp

theorem floor_f64Round_eq (x : ℚ) (q0 K : ℤ) (h1 : (2 : ℚ) ^ (-1022 : ℤ) ≤ x)
    (hK : x < 2 ^ (K + 1)) (hK52 : K ≤ 52) (hlo : (q0 : ℚ) ≤ x)
    (hhi : x + 2 ^ (K - 53) < q0 + 1) : ⌊f64Round x⌋ = q0 := by
  have hx : 0 < x := lt_of_lt_of_le (two_zpow_pos _) h1
  obtain ⟨e1, e2⟩ := floorLog2_spec x hx
  have hEK : floorLog2 x ≤ K := by
    have := lt_of_two_zpow_lt (lt_of_le_of_lt e1 hK)
    omega
  have hEmin : -1022 ≤ floorLog2 x := by
    have := lt_of_two_zpow_lt (lt_of_le_of_lt h1 e2)
    omega
  have hmax : max (floorLog2 x) (-1022) = floorLog2 x := max_eq_left hEmin
  have hr : f64Round x = (roundHalfEven (x / 2 ^ (floorLog2 x - 52)) : ℚ)
      * 2 ^ (floorLog2 x - 52) := by
    unfold f64Round
    rw [fpRound_pos 53 (-1022) x hx, hmax]
    norm_num
  set u : ℚ := 2 ^ (floorLog2 x - 52) with hu
  have hupos : 0 < u := two_zpow_pos _
  have hu2 : u / 2 ≤ 2 ^ (K - 53) := by
    have : u / 2 = 2 ^ (floorLog2 x - 52 - 1) := by
      rw [hu, zpow_sub_one₀ (by norm_num : (2 : ℚ) ≠ 0)]; ring
    rw [this]
    exact two_zpow_le (by omega)
  have hinv : u⁻¹ = ((2 ^ (52 - floorLog2 x).toNat : ℤ) : ℚ) := by
    rw [hu, ← zpow_neg, ← two_zpow_eq_intCast (by omega)]
    congr 1; ring
  rw [Int.floor_eq_iff, hr]
  constructor
  · have hq : q0 * 2 ^ (52 - floorLog2 x).toNat ≤ ⌊x / u⌋ := by
      rw [Int.le_floor, div_eq_mul_inv, hinv]
      push_cast
      apply mul_le_mul_of_nonneg_right hlo
      positivity
    have hq2 : q0 * 2 ^ (52 - floorLog2 x).toNat ≤ roundHalfEven (x / u) :=
      le_trans hq (roundHalfEven_floor_le _)
    have hq3 : ((q0 * 2 ^ (52 - floorLog2 x).toNat : ℤ) : ℚ) ≤ (roundHalfEven (x / u) : ℚ) := by
      exact_mod_cast hq2
    calc (q0 : ℚ) = ((q0 * 2 ^ (52 - floorLog2 x).toNat : ℤ) : ℚ) * u := by
          push_cast
          rw [mul_assoc]
          have : ((2 : ℚ) ^ (52 - floorLog2 x).toNat) * u = 1 := by
            have h := hinv
            push_cast at h
            rw [← h]
            exact inv_mul_cancel₀ hupos.ne'
          rw [this, mul_one]
      _ ≤ (roundHalfEven (x / u) : ℚ) * u := mul_le_mul_of_nonneg_right hq3 hupos.le
  · have h3 := roundHalfEven_le (x / u)
    calc (roundHalfEven (x / u) : ℚ) * u ≤ (x / u + 1 / 2) * u :=
          mul_le_mul_of_nonneg_right h3 hupos.le
      _ = x + u / 2 := by field_simp; ring
      _ ≤ x + 2 ^ (K - 53) := by linarith
      _ < q0 + 1 := hhi

theorem f64Round_natCast (n : ℕ) (h : n < 2 ^ 53) : f64Round (n : ℚ) = n := by
  rcases Nat.eq_zero_or_pos n with h0 | hpos
  · subst h0; simp [f64Round, fpRound]
  have hx : (0 : ℚ) < n := by exact_mod_cast hpos
  have hx1 : (1 : ℚ) ≤ n := by exact_mod_cast hpos
  obtain ⟨e1, e2⟩ := floorLog2_spec (n : ℚ) hx
  have hE52 : floorLog2 (n : ℚ) ≤ 52 := by
    have hn : (n : ℚ) < 2 ^ (53 : ℤ) := by
      have : (n : ℚ) < ((2 ^ 53 : ℕ) : ℚ) := by exact_mod_cast h
      rw [show (53 : ℤ) = ((53 : ℕ) : ℤ) from rfl, zpow_natCast]
      exact_mod_cast this
    have := lt_of_two_zpow_lt (lt_of_le_of_lt e1 hn)
    omega
  have hE0 : 0 ≤ floorLog2 (n : ℚ) := by
    have h1 : (2 : ℚ) ^ (0 : ℤ) < 2 ^ (floorLog2 (n : ℚ) + 1) := by
      rw [zpow_zero]; exact lt_of_le_of_lt hx1 e2
    have := lt_of_two_zpow_lt h1
    omega
  have hmax : max (floorLog2 (n : ℚ)) (-1022) = floorLog2 (n : ℚ) := max_eq_left (by omega)
  unfold f64Round
  rw [fpRound_pos 53 (-1022) _ hx, hmax]
  have hsub : floorLog2 (n : ℚ) - (((53 : ℕ) : ℤ) - 1) = -(52 - floorLog2 (n : ℚ)) := by
    push_cast; ring
  rw [hsub, zpow_neg, div_inv_eq_mul, two_zpow_eq_intCast (by omega : 0 ≤ 52 - floorLog2 (n : ℚ))]
  have : (n : ℚ) * ((2 ^ (52 - floorLog2 (n : ℚ)).toNat : ℤ) : ℚ)
      = (((n : ℤ) * 2 ^ (52 - floorLog2 (n : ℚ)).toNat : ℤ) : ℚ) := by push_cast; ring
  rw [this, roundHalfEven_intCast]
  push_cast
  field_simp



theorem f64_const_0_007 : f64Round (7 / 1000) = 8070450532247929 / 2 ^ 60 := by decide!

theorem f64_const_0_01 : f64Round (1 / 100) = 5764607523034235 / 2 ^ 59 := by decide!

theorem f64OfInt_exact (a : ℤ) (h0 : 0 ≤ a) (h : a < 2 ^ 53) : f64OfInt a = a := by
  obtain ⟨n, rfl⟩ := Int.eq_ofNat_of_zero_le h0
  have hn : n < 2 ^ 53 := by exact_mod_cast h
  unfold f64OfInt
  simpa using f64Round_natCast n hn

theorem truncToInt_f64Mul_ofInt (a : ℤ) (c : ℚ) (q0 K : ℤ) (ha : 0 ≤ a) (ha53 : a < 2 ^ 53)
    (h1 : (2 : ℚ) ^ (-1022 : ℤ) ≤ a * c) (hK : (a : ℚ) * c < 2 ^ (K + 1)) (hK52 : K ≤ 52)
    (hq0 : 0 ≤ q0) (hlo : (q0 : ℚ) ≤ a * c) (hhi : (a : ℚ) * c + 2 ^ (K - 53) < q0 + 1) :
    truncToInt (f64Mul (f64OfInt a) c) = q0 := by
  have hfl := floor_f64Round_eq (a * c) q0 K h1 hK hK52 hlo hhi
  unfold f64Mul
  rw [f64OfInt_exact a ha ha53]
  unfold truncToInt
  have hnn : 0 ≤ f64Round (a * c) := by
    rw [← Int.floor_nonneg, hfl]; exact hq0
  rw [if_pos hnn, hfl]

theorem floor_mul_frac (a : ℤ) (n d : ℕ) (hd : 0 < d) :
    ∃ r : ℤ, 0 ≤ r ∧ r < d ∧ a * n = d * ⌊(a : ℚ) * ((n : ℚ) / d)⌋ + r
      ∧ (a : ℚ) * ((n : ℚ) / d) = ⌊(a : ℚ) * ((n : ℚ) / d)⌋ + (r : ℚ) / d := by
  have hfl : ⌊(a : ℚ) * ((n : ℚ) / d)⌋ = (a * n) / (d : ℤ) := by
    rw [← Rat.floor_intCast_div_natCast]
    congr 1; push_cast; ring
  have hmod := Int.emod_add_ediv (a * n) (d : ℤ)
  have hdZ : (0 : ℤ) < d := by exact_mod_cast hd
  have hdQ : (0 : ℚ) < d := by exact_mod_cast hd
  refine ⟨(a * n) % (d : ℤ), Int.emod_nonneg _ hdZ.ne', Int.emod_lt_of_pos _ hdZ, ?_, ?_⟩
  · rw [hfl]; omega
  · rw [hfl]
    have hmodQ : (((a * n) % (d : ℤ) : ℤ) : ℚ) + (d : ℚ) * (((a * n) / (d : ℤ) : ℤ) : ℚ)
        = ((a * n : ℤ) : ℚ) := by exact_mod_cast hmod
    have e : (a : ℚ) * ((n : ℚ) / d) = (((a * n : ℤ)) : ℚ) / d := by push_cast; ring
    rw [e, ← hmodQ]
    field_simp
    ring

/-- For QRIS the fee is the exact floor of 0.7% of the amount, for every amount below
1256584717458857. -/
theorem calculateFee_QRIS_eq (amount : ℤ) (h1 : 1 ≤ amount)
    (h2 : amount ≤ 1256584717458856) :
    calculateFee amount "QRIS" = ⌊(amount : ℚ) * (7 / 1000)⌋ := by
  have hc := f64_const_0_007
  have hA1 : (1 : ℚ) ≤ amount := by exact_mod_cast h1
  have hA2 : (amount : ℚ) ≤ 1256584717458856 := by exact_mod_cast h2
  obtain ⟨r, hr0, hr1, hrZ, hrQ⟩ := floor_mul_frac amount 7 1000 (by norm_num)
  have hfl := Int.floor_le ((amount : ℚ) * (7 / 1000))
  have hq0 : 0 ≤ ⌊(amount : ℚ) * (7 / 1000)⌋ := by
    rw [Int.floor_nonneg]; positivity
  have hlow : (2 : ℚ) ^ (-1022 : ℤ) ≤ amount * (8070450532247929 / 2 ^ 60) :=
    calc (2 : ℚ) ^ (-1022 : ℤ) ≤ 2 ^ (-8 : ℤ) := two_zpow_le (by norm_num)
      _ ≤ 1 * (8070450532247929 / 2 ^ 60) := by norm_num
      _ ≤ amount * (8070450532247929 / 2 ^ 60) :=
          mul_le_mul_of_nonneg_right hA1 (by norm_num)
  simp only [calculateFee]
  rw [hc]
  norm_num at hrQ hrZ hr1
  by_cases hsmall : amount ≤ 1256584717458285
  · have hA3 : (amount : ℚ) ≤ 1256584717458285 := by exact_mod_cast hsmall
    have hr2 : (r : ℚ) ≤ 999 := by exact_mod_cast (show r ≤ 999 by omega)
    apply truncToInt_f64Mul_ofInt amount _ _ 42 (by omega) (by omega) hlow
    · norm_num; linarith
    · norm_num
    · exact hq0
    · norm_num at hfl ⊢; linarith
    · norm_num; linarith
  · have hr2 : (r : ℚ) ≤ 998 := by exact_mod_cast (show r ≤ 998 by omega)
    apply truncToInt_f64Mul_ofInt amount _ _ 43 (by omega) (by omega) hlow
    · norm_num; linarith
    · norm_num
    · exact hq0
    · norm_num at hfl ⊢; linarith
    · norm_num; linarith

theorem calculateFee_default_def (amount : ℤ) (method : String) (hQ : method ≠ "QRIS")
    (hB : method ≠ "BRIVA") (hC : method ≠ "BCAVA") (hM : method ≠ "MANDIRIVA")
    (hA : method ≠ "ALFAMART") (hI : method ≠ "INDOMARET") :
    calculateFee amount method
      = truncToInt (f64Mul (f64OfInt amount) (f64Round (1 / 100))) := by
  unfold calculateFee
  split <;> simp_all

/-- For an unrecognised method the fee is the exact floor of 1% of the amount, for every
amount below 9007199254740999. -/
theorem calculateFee_default_eq (amount : ℤ) (method : String) (h1 : 1 ≤ amount)
    (h2 : amount ≤ 9007199254740998) (hQ : method ≠ "QRIS") (hB : method ≠ "BRIVA")
    (hC : method ≠ "BCAVA") (hM : method ≠ "MANDIRIVA") (hA : method ≠ "ALFAMART")
    (hI : method ≠ "INDOMARET") :
    calculateFee amount method = ⌊(amount : ℚ) * (1 / 100)⌋ := by
  rw [calculateFee_default_def amount method hQ hB hC hM hA hI]
  by_cases hexact : amount < 2 ^ 53
  · have hc := f64_const_0_01
    have hA1 : (1 : ℚ) ≤ amount := by exact_mod_cast h1
    have hA2 : (amount : ℚ) < 2 ^ 53 := by exact_mod_cast hexact
    obtain ⟨r, hr0, hr1, hrZ, hrQ⟩ := floor_mul_frac amount 1 100 (by norm_num)
    have hfl := Int.floor_le ((amount : ℚ) * (1 / 100))
    have hq0 : 0 ≤ ⌊(amount : ℚ) * (1 / 100)⌋ := by
      rw [Int.floor_nonneg]; positivity
    norm_num at hrQ hrZ hr1
    have hr2 : (r : ℚ) ≤ 99 := by exact_mod_cast (show r ≤ 99 by omega)
    rw [hc]
    apply truncToInt_f64Mul_ofInt amount _ _ 46 (by omega) hexact
    · calc (2 : ℚ) ^ (-1022 : ℤ) ≤ 2 ^ (-8 : ℤ) := two_zpow_le (by norm_num)
        _ ≤ 1 * (5764607523034235 / 2 ^ 59) := by norm_num
        _ ≤ amount * (5764607523034235 / 2 ^ 59) :=
            mul_le_mul_of_nonneg_right hA1 (by norm_num)
    · norm_num at hA2 ⊢; linarith
    · norm_num
    · exact hq0
    · norm_num at hfl ⊢; linarith
    · norm_num at hA2 ⊢; linarith
  · have hlo : (9007199254740992 : ℤ) ≤ amount := by
      have : (2 : ℤ) ^ 53 = 9007199254740992 := by norm_num
      omega
    interval_cases amount <;> decide!

theorem f64Round_near (x : ℚ) (hx : 0 < x) :
    x - ulp64 x / 2 ≤ f64Round x ∧ f64Round x ≤ x + ulp64 x / 2 ∧ 0 ≤ f64Round x := by
  have hr : f64Round x = (roundHalfEven (x / ulp64 x) : ℚ) * ulp64 x := by
    unfold f64Round ulp64
    rw [fpRound_pos 53 (-1022) x hx]
    norm_num
  have hu : 0 < ulp64 x := two_zpow_pos _
  have h1 := roundHalfEven_le (x / ulp64 x)
  have h2 := roundHalfEven_ge (x / ulp64 x)
  have h3 : (0 : ℚ) ≤ (roundHalfEven (x / ulp64 x) : ℚ) := by
    have : 0 ≤ ⌊x / ulp64 x⌋ := Int.floor_nonneg.mpr (div_nonneg hx.le hu.le)
    exact_mod_cast le_trans this (roundHalfEven_floor_le _)
  have e1 : (x / ulp64 x + 1 / 2) * ulp64 x = x + ulp64 x / 2 := by field_simp; ring
  have e2 : (x / ulp64 x - 1 / 2) * ulp64 x = x - ulp64 x / 2 := by field_simp; ring
  rw [hr]
  refine ⟨?_, ?_, mul_nonneg h3 hu.le⟩
  · rw [← e2]; exact mul_le_mul_of_nonneg_right h2 hu.le
  · rw [← e1]; exact mul_le_mul_of_nonneg_right h1 hu.le

theorem ulp64_le_of_lt (x : ℚ) (K : ℤ) (hx : 0 < x) (hK : x < 2 ^ (K + 1))
    (hmin : -1022 ≤ K) : ulp64 x ≤ 2 ^ (K - 52) := by
  obtain ⟨e1, _⟩ := floorLog2_spec x hx
  have := lt_of_two_zpow_lt (lt_of_le_of_lt e1 hK)
  unfold ulp64
  apply two_zpow_le
  have : max (floorLog2 x) (-1022) ≤ K := max_le (by omega) hmin
  omega

theorem ulp64_le_self (x : ℚ) (h : (2 : ℚ) ^ (-1022 : ℤ) ≤ x) : ulp64 x ≤ x := by
  have hx : 0 < x := lt_of_lt_of_le (two_zpow_pos _) h
  obtain ⟨e1, e2⟩ := floorLog2_spec x hx
  have := lt_of_two_zpow_lt (lt_of_le_of_lt h e2)
  unfold ulp64
  rw [max_eq_left (by omega)]
  exact le_trans (two_zpow_le (by omega)) e1

theorem f64Round_bounds (x : ℚ) (h : (2 : ℚ) ^ (-1022 : ℤ) ≤ x) :
    x / 2 ≤ f64Round x ∧ f64Round x ≤ 2 * x := by
  have hx : 0 < x := lt_of_lt_of_le (two_zpow_pos _) h
  obtain ⟨a, b, _⟩ := f64Round_near x hx
  have hu := ulp64_le_self x h
  constructor <;> linarith

/-- A percentage fee of a positive amount lies between zero and the amount, whatever the
size of the amount. -/
theorem percentFee_bounds (a : ℤ) (c : ℚ) (ha : 1 ≤ a) (hc1 : (2 : ℚ) ^ (-1000 : ℤ) ≤ c)
    (hc2 : c ≤ 1 / 4) :
    0 ≤ truncToInt (f64Mul (f64OfInt a) c) ∧ truncToInt (f64Mul (f64OfInt a) c) ≤ a := by
  have hA : (1 : ℚ) ≤ a := by exact_mod_cast ha
  have hcpos : 0 < c := lt_of_lt_of_le (two_zpow_pos _) hc1
  have hsmall : (2 : ℚ) ^ (-1022 : ℤ) ≤ 1 := by
    have := two_zpow_le (show (-1022 : ℤ) ≤ 0 by norm_num)
    simpa using this
  obtain ⟨l1, l2⟩ := f64Round_bounds (a : ℚ) (le_trans hsmall hA)
  have hx2 : (2 : ℚ) ^ (-1022 : ℤ) ≤ f64Round (a : ℚ) * c := by
    have h22 : (2 : ℚ) ^ (-1022 : ℤ) ≤ 1 / 2 * 2 ^ (-1000 : ℤ) := by
      have e : (1 / 2 : ℚ) * 2 ^ (-1000 : ℤ) = 2 ^ (-1001 : ℤ) := by
        rw [show (-1001 : ℤ) = -1000 - 1 by norm_num,
          zpow_sub_one₀ (by norm_num : (2 : ℚ) ≠ 0)]
        ring
      rw [e]; exact two_zpow_le (by norm_num)
    have h12 : (1 / 2 : ℚ) ≤ f64Round (a : ℚ) := by linarith
    calc (2 : ℚ) ^ (-1022 : ℤ) ≤ 1 / 2 * 2 ^ (-1000 : ℤ) := h22
      _ ≤ f64Round (a : ℚ) * c :=
          mul_le_mul h12 hc1 (two_zpow_pos _).le (by linarith)
  obtain ⟨m1, m2⟩ := f64Round_bounds _ hx2
  have hnn : 0 ≤ f64Round (f64Round (a : ℚ) * c) := by
    have : 0 ≤ f64Round (a : ℚ) * c := le_trans (two_zpow_pos _).le hx2
    linarith
  have hle : f64Round (f64Round (a : ℚ) * c) ≤ a := by
    have : f64Round (a : ℚ) * c ≤ 2 * a * (1 / 4) :=
      mul_le_mul l2 hc2 hcpos.le (by linarith)
    linarith
  unfold f64Mul f64OfInt truncToInt
  rw [if_pos hnn]
  refine ⟨Int.floor_nonneg.mpr hnn, ?_⟩
  have := Int.floor_le (f64Round (f64Round (a : ℚ) * c))
  have h3 : ((⌊f64Round (f64Round (a : ℚ) * c)⌋ : ℤ) : ℚ) ≤ (a : ℚ) := le_trans this hle
  exact_mod_cast h3

theorem calculateFee_cases (amount : ℤ) (method : String) :
    calculateFee amount method = truncToInt (f64Mul (f64OfInt amount) (f64Round (7 / 1000)))
    ∨ calculateFee amount method = 4000 ∨ calculateFee amount method = 2500
    ∨ calculateFee amount method = truncToInt (f64Mul (f64OfInt amount) (f64Round (1 / 100))) := by
  unfold calculateFee
  split <;> simp

/-- For a valid amount the subtraction `amount - fee` does not leave the 64-bit range. -/
theorem amount_sub_fee_range (amount : ℤ) (method : String) (h1 : 1 ≤ amount)
    (h2 : amount < 2 ^ 63) :
    wrapInt64 (amount - calculateFee amount method) = amount - calculateFee amount method := by
  have hrange : -2 ^ 63 ≤ amount - calculateFee amount method
      ∧ amount - calculateFee amount method < 2 ^ 63 := by
    rcases calculateFee_cases amount method with h | h | h | h
    · rw [h, f64_const_0_007]
      obtain ⟨a, b⟩ := percentFee_bounds amount (8070450532247929 / 2 ^ 60) h1
        (le_trans (two_zpow_le (show (-1000 : ℤ) ≤ -8 by norm_num)) (by norm_num)) (by norm_num)
      constructor <;> omega
    · rw [h]; constructor <;> omega
    · rw [h]; constructor <;> omega
    · rw [h, f64_const_0_01]
      obtain ⟨a, b⟩ := percentFee_bounds amount (5764607523034235 / 2 ^ 59) h1
        (le_trans (two_zpow_le (show (-1000 : ℤ) ≤ -8 by norm_num)) (by norm_num)) (by norm_num)
      constructor <;> omega
  unfold wrapInt64
  omega

/-! ## C2: the fee schedule -/

/-- C2 (as stated, refuted): for the valid amount 1256584717458857 and method QRIS the
code returns 8796093022212, whereas floor(amount * 0.007) is 8796093022211; likewise for the
valid amount 9007199254740999 and the unrecognised method OVO it returns 90071992547410,
whereas floor(amount * 0.01) is 90071992547409. -/
theorem calculateFee_exceeds_floor :
    (1 : ℤ) ≤ 1256584717458857 ∧ (1256584717458857 : ℤ) < 2 ^ 63
    ∧ calculateFee 1256584717458857 "QRIS" = 8796093022212
    ∧ ⌊((1256584717458857 : ℤ) : ℚ) * (7 / 1000)⌋ = 8796093022211
    ∧ calculateFee 1256584717458857 "QRIS" ≠ ⌊((1256584717458857 : ℤ) : ℚ) * (7 / 1000)⌋
    ∧ (1 : ℤ) ≤ 9007199254740999 ∧ (9007199254740999 : ℤ) < 2 ^ 63
    ∧ calculateFee 9007199254740999 "OVO" = 90071992547410
    ∧ ⌊((9007199254740999 : ℤ) : ℚ) * (1 / 100)⌋ = 90071992547409 := by
  decide!

/-- C2 (amended): for every amount of at least 1, `calculateFee` returns 4000 for BRIVA,
BCAVA and MANDIRIVA and 2500 for ALFAMART and INDOMARET; it returns floor(amount * 0.007)
for QRIS when the amount is at most 1256584717458856, and floor(amount * 0.01) for every
other method string when the amount is at most 9007199254740998.  It is total, so an
unrecognised method never fails.  In particular the fee for QRIS and 100000 is 700 and the
amount received for BRIVA and 50000 is 46000. -/
theorem calculateFee_schedule (amount : ℤ) (method : String) (h1 : 1 ≤ amount) :
    (method = "BRIVA" ∨ method = "BCAVA" ∨ method = "MANDIRIVA" →
      calculateFee amount method = 4000)
    ∧ (method = "ALFAMART" ∨ method = "INDOMARET" → calculateFee amount method = 2500)
    ∧ (method = "QRIS" → amount ≤ 1256584717458856 →
        calculateFee amount method = ⌊(amount : ℚ) * (7 / 1000)⌋)
    ∧ (method ≠ "QRIS" → method ≠ "BRIVA" → method ≠ "BCAVA" → method ≠ "MANDIRIVA" →
        method ≠ "ALFAMART" → method ≠ "INDOMARET" → amount ≤ 9007199254740998 →
        calculateFee amount method = ⌊(amount : ℚ) * (1 / 100)⌋)
    ∧ calculateFee 100000 "QRIS" = 700
    ∧ wrapInt64 (50000 - calculateFee 50000 "BRIVA") = 46000 := by
  refine ⟨?_, ?_, ?_, ?_, by decide!, by decide!⟩
  · rintro (h | h | h) <;> subst h <;> rfl
  · rintro (h | h) <;> subst h <;> rfl
  · intro h h2; subst h
    exact calculateFee_QRIS_eq amount h1 h2
  · intro hQ hB hC hM hA hI h2
    exact calculateFee_default_eq amount method h1 h2 hQ hB hC hM hA hI

/-- C2, witness: the schedule at amount 100000 and method QRIS. -/
theorem calculateFee_schedule_witness :
    (1 : ℤ) ≤ 100000 ∧ (100000 : ℤ) ≤ 1256584717458856
    ∧ calculateFee 100000 "QRIS" = ⌊((100000 : ℤ) : ℚ) * (7 / 1000)⌋ :=
  ⟨by norm_num, by norm_num,
    (calculateFee_schedule 100000 "QRIS" (by norm_num)).2.2.1 rfl (by norm_num)⟩

/-! ## The transaction map -/

theorem Store.get_set_same (m : Store) (k : String) (v : TransactionDetailData) :
    (m.set k v).get k = some v := by
  induction m with
  | nil => simp [Store.set, Store.get]
  | cons p rest ih =>
    obtain ⟨k', v'⟩ := p
    by_cases h : k' = k
    · simp [Store.set, Store.get, h]
    · simp [Store.set, Store.get, h, ih]

theorem Store.get_set_ne (m : Store) (k k' : String) (v : TransactionDetailData)
    (hne : k' ≠ k) : (m.set k v).get k' = m.get k' := by
  induction m with
  | nil => simp [Store.set, Store.get, Ne.symm hne]
  | cons p rest ih =>
    obtain ⟨k0, v0⟩ := p
    by_cases h : k0 = k
    · subst h
      simp [Store.set, Store.get, Ne.symm hne]
    · by_cases h2 : k0 = k'
      · subst h2
        simp [Store.set, Store.get, h]
      · simp [Store.set, Store.get, h, h2, ih]

/-! ## C3 and C4: the auto-payment transition -/

theorem simulateAutoPayment_of_unpaid (s : PaymentService) (reference : String) (now : Time)
    (r : TransactionDetailData) (hget : s.transactions.get reference = some r)
    (hst : r.Status = "UNPAID") :
    simulateAutoPayment s reference now =
      { s with
        transactions := s.transactions.set reference
          { r with Status := "PAID", PaidAt := some now, UpdatedAt := now }
        stats := { s.stats with PaidTransactions := s.stats.PaidTransactions + 1 } } := by
  unfold simulateAutoPayment
  rw [hget]
  simp [hst]

theorem simulateAutoPayment_of_absent (s : PaymentService) (reference : String) (now : Time)
    (hget : s.transactions.get reference = none) : simulateAutoPayment s reference now = s := by
  unfold simulateAutoPayment
  rw [hget]

theorem simulateAutoPayment_of_not_unpaid (s : PaymentService) (reference : String)
    (now : Time) (r : TransactionDetailData) (hget : s.transactions.get reference = some r)
    (hst : r.Status ≠ "UNPAID") : simulateAutoPayment s reference now = s := by
  unfold simulateAutoPayment
  rw [hget]
  simp [hst]

/-- C3: when `reference` maps to a record whose status is UNPAID, the auto-payment firing
at time `now` turns exactly that record into the same record with status PAID, paid_at =
now and updated_at = now (all its other fields as before), leaves the record under every
other reference as it was, adds exactly 1 to paid_transactions and leaves every other
statistics field and the configuration unchanged. -/
theorem simulateAutoPayment_pays (s : PaymentService) (reference : String) (now : Time)
    (r : TransactionDetailData) (hget : s.transactions.get reference = some r)
    (hst : r.Status = "UNPAID") :
    (simulateAutoPayment s reference now).transactions.get reference
        = some { r with Status := "PAID", PaidAt := some now, UpdatedAt := now }
    ∧ (∀ other, other ≠ reference →
        (simulateAutoPayment s reference now).transactions.get other
          = s.transactions.get other)
    ∧ (simulateAutoPayment s reference now).stats
        = { s.stats with PaidTransactions := s.stats.PaidTransactions + 1 }
    ∧ (simulateAutoPayment s reference now).successRate = s.successRate
    ∧ (simulateAutoPayment s reference now).avgResponseTime = s.avgResponseTime
    ∧ (simulateAutoPayment s reference now).autoPayDelay = s.autoPayDelay := by
  rw [simulateAutoPayment_of_unpaid s reference now r hget hst]
  refine ⟨Store.get_set_same _ _ _, ?_, rfl, rfl, rfl, rfl⟩
  intro other hne
  exact Store.get_set_ne _ _ _ _ hne

/-- C4: when `reference` is not in the store, or its record's status is not UNPAID, the
auto-payment firing changes nothing: the whole engine state (store and statistics) is as
before.  Hence a second firing for the same reference never changes anything, two firings
for an UNPAID record add exactly 1 to paid_transactions, and a firing after a creation
followed by a reset changes nothing and leaves paid_transactions at 0. -/
theorem simulateAutoPayment_noop :
    (∀ (s : PaymentService) (reference : String) (now : Time),
      (s.transactions.get reference = none
        ∨ ∃ r, s.transactions.get reference = some r ∧ r.Status ≠ "UNPAID") →
      simulateAutoPayment s reference now = s)
    ∧ (∀ (s : PaymentService) (reference : String) (now later : Time),
        simulateAutoPayment (simulateAutoPayment s reference now) reference later
          = simulateAutoPayment s reference now)
    ∧ (∀ (s : PaymentService) (reference : String) (now later : Time)
        (r : TransactionDetailData),
        s.transactions.get reference = some r → r.Status = "UNPAID" →
        (simulateAutoPayment (simulateAutoPayment s reference now) reference later).stats.PaidTransactions
          = s.stats.PaidTransactions + 1)
    ∧ (∀ (s : PaymentService) (req : CreateTransactionRequest) (env : CreateEnv)
        (reference : String) (now : Time),
        simulateAutoPayment (ResetData (CreateTransaction s req env).1).1 reference now
          = (ResetData (CreateTransaction s req env).1).1
        ∧ (simulateAutoPayment (ResetData (CreateTransaction s req env).1).1
            reference now).stats.PaidTransactions = 0) := by
  have hnoop : ∀ (s : PaymentService) (reference : String) (now : Time),
      (s.transactions.get reference = none
        ∨ ∃ r, s.transactions.get reference = some r ∧ r.Status ≠ "UNPAID") →
      simulateAutoPayment s reference now = s := by
    rintro s reference now (h | ⟨r, h, hr⟩)
    · exact simulateAutoPayment_of_absent s reference now h
    · exact simulateAutoPayment_of_not_unpaid s reference now r h hr
  have htwice : ∀ (s : PaymentService) (reference : String) (now later : Time),
      simulateAutoPayment (simulateAutoPayment s reference now) reference later
        = simulateAutoPayment s reference now := by
    intro s reference now later
    cases hget : s.transactions.get reference with
    | none =>
      rw [simulateAutoPayment_of_absent s reference now hget]
      exact simulateAutoPayment_of_absent s reference later hget
    | some r =>
      by_cases hst : r.Status = "UNPAID"
      · apply hnoop
        right
        refine ⟨{ r with Status := "PAID", PaidAt := some now, UpdatedAt := now }, ?_, by simp⟩
        rw [simulateAutoPayment_of_unpaid s reference now r hget hst]
        exact Store.get_set_same _ _ _
      · rw [simulateAutoPayment_of_not_unpaid s reference now r hget hst]
        exact simulateAutoPayment_of_not_unpaid s reference later r hget hst
  refine ⟨hnoop, htwice, ?_, ?_⟩
  · intro s reference now later r hget hst
    rw [htwice, simulateAutoPayment_of_unpaid s reference now r hget hst]
  · intro s req env reference now
    have h : simulateAutoPayment (ResetData (CreateTransaction s req env).1).1 reference now
        = (ResetData (CreateTransaction s req env).1).1 :=
      simulateAutoPayment_of_absent _ _ _ rfl
    rw [h]
    exact ⟨rfl, rfl⟩

/-- C3, witness: the auto-payment of the record stored by the first creation. -/
theorem simulateAutoPayment_pays_witness :
    stateAfterCreate.transactions.get "T1700000000abcdef01" = some sampleRecord
    ∧ sampleRecord.Status = "UNPAID"
    ∧ (simulateAutoPayment stateAfterCreate "T1700000000abcdef01"
          1700000030123460000).transactions.get "T1700000000abcdef01"
        = some { sampleRecord with
                  Status := "PAID"
                  PaidAt := some 1700000030123460000
                  UpdatedAt := 1700000030123460000 }
    ∧ (simulateAutoPayment stateAfterCreate "T1700000000abcdef01"
          1700000030123460000).stats
        = { stateAfterCreate.stats with
            PaidTransactions := stateAfterCreate.stats.PaidTransactions + 1 } :=
  ⟨by decide!, by decide,
    (simulateAutoPayment_pays stateAfterCreate "T1700000000abcdef01" 1700000030123460000
      sampleRecord (by decide!) (by decide)).1,
    (simulateAutoPayment_pays stateAfterCreate "T1700000000abcdef01" 1700000030123460000
      sampleRecord (by decide!) (by decide)).2.2.1⟩

/-- C4, witness: a firing on a fresh service, whose store is empty. -/
theorem simulateAutoPayment_noop_witness :
    NewPaymentService.transactions.get "T1700000000abcdef01" = none
    ∧ simulateAutoPayment NewPaymentService "T1700000000abcdef01" 1700000030123460000
        = NewPaymentService :=
  ⟨rfl, simulateAutoPayment_noop.1 NewPaymentService "T1700000000abcdef01"
    1700000030123460000 (Or.inl rfl)⟩

/-! ## C1: successful creation -/

theorem CreateTransaction_of_fail (s : PaymentService) (req : CreateTransactionRequest)
    (env : CreateEnv) (h : env.failRoll > s.successRate) :
    CreateTransaction s req env =
      (updateStats (updateStats s env.failSince false) env.deferSince true,
        { Success := false
          Message := "Payment gateway temporarily unavailable"
          Data := .nil }) := by
  unfold CreateTransaction
  rw [if_pos h]

theorem CreateTransaction_transactions_of_ok (s : PaymentService)
    (req : CreateTransactionRequest) (env : CreateEnv) (h : ¬ env.failRoll > s.successRate) :
    (CreateTransaction s req env).1.transactions =
      s.transactions.set (generateReference env.refNow env.uuid)
        { Reference := generateReference env.refNow env.uuid
          MerchantRef := req.MerchantRef
          PaymentMethod := req.Method
          PaymentName := getPaymentName req.Method
          CustomerName := req.CustomerName
          CustomerEmail := req.CustomerEmail
          CustomerPhone := req.CustomerPhone
          Amount := req.Amount
          Fee := calculateFee req.Amount req.Method
          TotalFee := calculateFee req.Amount req.Method
          AmountReceived := wrapInt64 (req.Amount - calculateFee req.Amount req.Method)
          Status := "UNPAID"
          PaidAt := none
          CreatedAt := env.createdAt
          UpdatedAt := env.updatedAt } := by
  unfold CreateTransaction
  rw [if_neg h]
  rfl

/-- C1 (as stated, refuted): a creation on a reachable state, for a valid request and
without the failure roll, returns a reference that is already a key of the store. The
state holds the record of an earlier creation in the same second whose UUID starts with
the same eight characters. -/
theorem CreateTransaction_reference_collision :
    Reachable stateAfterCreate ∧ ValidRequest sampleRequest
    ∧ ¬ collidingEnv.failRoll > stateAfterCreate.successRate
    ∧ sampleEnv.uuid ≠ collidingEnv.uuid
    ∧ (CreateTransaction stateAfterCreate sampleRequest collidingEnv).2
        = { Success := true
            Message := "Transaction created"
            Data := .transaction collidingResponse }
    ∧ stateAfterCreate.transactions.get collidingResponse.Reference = some sampleRecord :=
  ⟨Reachable.create _ _ Reachable.init (by decide), by decide, by decide!, by decide,
    by decide!, by decide!⟩

/-- C1 (amended): for every engine state and every valid creation request (amount between 1
and the largest 64-bit integer, any method), when the simulated failure roll does not occur
`CreateTransaction` returns the success envelope "Transaction created" whose record has
amount_received = amount - fee, status UNPAID and the reference made of "T", the Unix
seconds and the first eight characters of the UUID drawn by the call; the record stored
under that reference has status UNPAID, paid_at = null and amount_received =
amount - fee, and the records under all other references are as before. Whether the
reference was already a key is not checked. -/
theorem CreateTransaction_success (s : PaymentService) (req : CreateTransactionRequest)
    (env : CreateEnv) (hvalid : ValidRequest req) (hroll : ¬ env.failRoll > s.successRate) :
    ∃ d : TransactionData,
      (CreateTransaction s req env).2
        = { Success := true, Message := "Transaction created", Data := .transaction d }
      ∧ d.Reference = generateReference env.refNow env.uuid
      ∧ d.Amount = req.Amount
      ∧ d.Fee = calculateFee req.Amount req.Method
      ∧ d.AmountReceived = d.Amount - d.Fee
      ∧ d.Status = "UNPAID"
      ∧ (∃ r : TransactionDetailData,
          (CreateTransaction s req env).1.transactions.get d.Reference = some r
          ∧ r.Status = "UNPAID" ∧ r.PaidAt = none
          ∧ r.AmountReceived = r.Amount - r.Fee)
      ∧ (∀ other, other ≠ d.Reference →
          (CreateTransaction s req env).1.transactions.get other = s.transactions.get other) := by
  have hrange := amount_sub_fee_range req.Amount req.Method hvalid.1 hvalid.2
  have htx := CreateTransaction_transactions_of_ok s req env hroll
  have hresp : ∃ d : TransactionData,
      (CreateTransaction s req env).2
        = { Success := true, Message := "Transaction created", Data := .transaction d }
      ∧ d.Reference = generateReference env.refNow env.uuid
      ∧ d.Amount = req.Amount
      ∧ d.Fee = calculateFee req.Amount req.Method
      ∧ d.AmountReceived = wrapInt64 (req.Amount - calculateFee req.Amount req.Method)
      ∧ d.Status = "UNPAID" := by
    unfold CreateTransaction
    rw [if_neg hroll]
    exact ⟨_, rfl, rfl, rfl, rfl, rfl, rfl⟩
  obtain ⟨d, h1, h2, h3, h4, h5, h6⟩ := hresp
  refine ⟨d, h1, h2, h3, h4, ?_, h6, ?_, ?_⟩
  · rw [h5, h3, h4]; exact hrange
  · rw [htx, h2]
    exact ⟨_, Store.get_set_same _ _ _, rfl, rfl, hrange⟩
  · intro other hne
    rw [htx]
    rw [h2] at hne
    exact Store.get_set_ne _ _ _ _ hne

/-- C1, witness: the first creation on a fresh service. -/
theorem CreateTransaction_success_witness :
    ValidRequest sampleRequest ∧ ¬ sampleEnv.failRoll > NewPaymentService.successRate
    ∧ ∃ d : TransactionData,
      (CreateTransaction NewPaymentService sampleRequest sampleEnv).2
        = { Success := true, Message := "Transaction created", Data := .transaction d }
      ∧ d.Reference = generateReference sampleEnv.refNow sampleEnv.uuid
      ∧ d.Amount = sampleRequest.Amount
      ∧ d.Fee = calculateFee sampleRequest.Amount sampleRequest.Method
      ∧ d.AmountReceived = d.Amount - d.Fee
      ∧ d.Status = "UNPAID"
      ∧ (∃ r : TransactionDetailData,
          (CreateTransaction NewPaymentService sampleRequest sampleEnv).1.transactions.get
              d.Reference = some r
          ∧ r.Status = "UNPAID" ∧ r.PaidAt = none
          ∧ r.AmountReceived = r.Amount - r.Fee)
      ∧ (∀ other, other ≠ d.Reference →
          (CreateTransaction NewPaymentService sampleRequest sampleEnv).1.transactions.get other
            = NewPaymentService.transactions.get other) :=
  ⟨by decide, by decide!,
    CreateTransaction_success NewPaymentService sampleRequest sampleEnv (by decide) (by decide!)⟩

/-! ## C5: the record invariant on reachable states -/

theorem updateStats_transactions (s : PaymentService) (d : Duration) (b : Bool) :
    (updateStats s d b).transactions = s.transactions := rfl

theorem RecordConsistent_created (req : CreateTransactionRequest) (env : CreateEnv)
    (hvalid : ValidRequest req) :
    RecordConsistent
      { Reference := generateReference env.refNow env.uuid
        MerchantRef := req.MerchantRef
        PaymentMethod := req.Method
        PaymentName := getPaymentName req.Method
        CustomerName := req.CustomerName
        CustomerEmail := req.CustomerEmail
        CustomerPhone := req.CustomerPhone
        Amount := req.Amount
        Fee := calculateFee req.Amount req.Method
        TotalFee := calculateFee req.Amount req.Method
        AmountReceived := wrapInt64 (req.Amount - calculateFee req.Amount req.Method)
        Status := "UNPAID"
        PaidAt := none
        CreatedAt := env.createdAt
        UpdatedAt := env.updatedAt } := by
  refine ⟨amount_sub_fee_range req.Amount req.Method hvalid.1 hvalid.2, Or.inl rfl, ?_, ?_⟩
  · intro h; simp at h
  · intro _; rfl

theorem RecordConsistent_paid (r : TransactionDetailData) (now : Time)
    (h : RecordConsistent r) :
    RecordConsistent { r with Status := "PAID", PaidAt := some now, UpdatedAt := now } := by
  refine ⟨h.1, Or.inr rfl, ?_, ?_⟩
  · intro _; simp
  · intro hc; simp at hc

/-- Every record of a reachable state satisfies the record invariant. -/
theorem Reachable.records_consistent {s : PaymentService} (h : Reachable s) :
    ∀ reference r, s.transactions.get reference = some r → RecordConsistent r := by
  induction h with
  | init => intro reference r hget; simp [NewPaymentService, Store.get] at hget
  | @create s req env _ hvalid ih =>
    intro reference r hget
    by_cases hf : env.failRoll > s.successRate
    · rw [CreateTransaction_of_fail s req env hf] at hget
      exact ih reference r hget
    · rw [CreateTransaction_transactions_of_ok s req env hf] at hget
      by_cases hk : reference = generateReference env.refNow env.uuid
      · subst hk
        rw [Store.get_set_same] at hget
        cases hget
        exact RecordConsistent_created req env hvalid
      · rw [Store.get_set_ne _ _ _ _ hk] at hget
        exact ih reference r hget
  | @detail s ref since _ ih =>
    intro reference r hget
    have : (GetTransactionDetail s ref since).1.transactions = s.transactions := by
      unfold GetTransactionDetail
      split <;> rfl
    rw [this] at hget
    exact ih reference r hget
  | channels _ ih => exact ih
  | stats _ ih => exact ih
  | reset _ ih => intro reference r hget; simp [ResetData, Store.get] at hget
  | @autoPay s ref now _ ih =>
    intro reference r hget
    cases hstored : s.transactions.get ref with
    | none =>
      rw [simulateAutoPayment_of_absent s ref now hstored] at hget
      exact ih reference r hget
    | some r0 =>
      by_cases hst : r0.Status = "UNPAID"
      · rw [simulateAutoPayment_of_unpaid s ref now r0 hstored hst] at hget
        by_cases hk : reference = ref
        · subst hk
          simp only [Store.get_set_same] at hget
          cases hget
          exact RecordConsistent_paid r0 now (ih _ r0 hstored)
        · simp only [Store.get_set_ne _ _ _ _ hk] at hget
          exact ih reference r hget
      · rw [simulateAutoPayment_of_not_unpaid s ref now r0 hstored hst] at hget
        exact ih reference r hget

/-- C5: in every state reachable from `NewPaymentService` by `CreateTransaction` (on
requests the boundary accepts), `GetTransactionDetail`, `GetPaymentChannels`, `GetStats`,
`ResetData` and auto-payment firings, every stored record has amount_received =
amount - fee, a status that is UNPAID or PAID, a non-null paid_at when PAID and a null
paid_at when UNPAID. -/
theorem reachable_records_consistent (s : PaymentService) (h : Reachable s)
    (reference : String) (r : TransactionDetailData)
    (hget : s.transactions.get reference = some r) :
    r.AmountReceived = r.Amount - r.Fee
    ∧ (r.Status = "UNPAID" ∨ r.Status = "PAID")
    ∧ (r.Status = "PAID" → r.PaidAt ≠ none)
    ∧ (r.Status = "UNPAID" → r.PaidAt = none) :=
  h.records_consistent reference r hget

/-- C5, witness: the record stored by the first creation on a fresh service. -/
theorem reachable_records_consistent_witness :
    Reachable stateAfterCreate
    ∧ stateAfterCreate.transactions.get "T1700000000abcdef01" = some sampleRecord
    ∧ sampleRecord.AmountReceived = sampleRecord.Amount - sampleRecord.Fee
    ∧ (sampleRecord.Status = "UNPAID" ∨ sampleRecord.Status = "PAID")
    ∧ (sampleRecord.Status = "PAID" → sampleRecord.PaidAt ≠ none)
    ∧ (sampleRecord.Status = "UNPAID" → sampleRecord.PaidAt = none) :=
  ⟨Reachable.create _ _ Reachable.init (by decide), by decide!,
    reachable_records_consistent stateAfterCreate
      (Reachable.create _ _ Reachable.init (by decide)) "T1700000000abcdef01" sampleRecord
      (by decide!)⟩

/-! ## C6: request counters -/

theorem updateStats_counters (s : PaymentService) (d : Duration) (success : Bool) :
    (updateStats s d success).stats.TotalRequests = s.stats.TotalRequests + 1
    ∧ (updateStats s d success).stats.SuccessRequests
        = s.stats.SuccessRequests + (if success then 1 else 0)
    ∧ (updateStats s d success).stats.FailureRequests
        = s.stats.FailureRequests + (if success then 0 else 1)
    ∧ (updateStats s d success).stats.SuccessRate = s.stats.SuccessRate
    ∧ (updateStats s d success).stats.TotalTransactions = s.stats.TotalTransactions
    ∧ (updateStats s d success).stats.PaidTransactions = s.stats.PaidTransactions := by
  cases success <;> simp [updateStats]

/-- A lookup, found or not, counts one request and one success. -/
theorem GetTransactionDetail_counters (s : PaymentService) (reference : String)
    (since : Duration) :
    (GetTransactionDetail s reference since).1.stats.TotalRequests = s.stats.TotalRequests + 1
    ∧ (GetTransactionDetail s reference since).1.stats.SuccessRequests
        = s.stats.SuccessRequests + 1
    ∧ (GetTransactionDetail s reference since).1.stats.FailureRequests
        = s.stats.FailureRequests := by
  have h : (GetTransactionDetail s reference since).1 = updateStats s since true := by
    unfold GetTransactionDetail
    split <;> rfl
  rw [h]
  simp [updateStats]

/-- A creation without the failure roll counts one request and one success. -/
theorem CreateTransaction_counters_of_ok (s : PaymentService) (req : CreateTransactionRequest)
    (env : CreateEnv) (h : ¬ env.failRoll > s.successRate) :
    (CreateTransaction s req env).1.stats.TotalRequests = s.stats.TotalRequests + 1
    ∧ (CreateTransaction s req env).1.stats.SuccessRequests = s.stats.SuccessRequests + 1
    ∧ (CreateTransaction s req env).1.stats.FailureRequests = s.stats.FailureRequests
    ∧ (CreateTransaction s req env).1.stats.SuccessRate = s.stats.SuccessRate := by
  unfold CreateTransaction
  rw [if_neg h]
  simp [updateStats]

/-- A creation that hits the failure roll runs `updateStats` twice: once in the failure
branch and once more, as a success, from the deferred call. -/
theorem CreateTransaction_counters_of_fail (s : PaymentService)
    (req : CreateTransactionRequest) (env : CreateEnv) (h : env.failRoll > s.successRate) :
    (CreateTransaction s req env).1.stats.TotalRequests = s.stats.TotalRequests + 2
    ∧ (CreateTransaction s req env).1.stats.SuccessRequests = s.stats.SuccessRequests + 1
    ∧ (CreateTransaction s req env).1.stats.FailureRequests = s.stats.FailureRequests + 1
    ∧ (CreateTransaction s req env).1.stats.SuccessRate = s.stats.SuccessRate := by
  rw [CreateTransaction_of_fail s req env h]
  simp [updateStats]
  ring

/-- C6 (code defect): a `CreateTransaction` call on a fresh service that hits the
simulated failure returns the failure envelope and leaves total_requests = 2,
success_requests = 1 and failure_requests = 1, where the claim requires 1, 0 and 1. -/
theorem CreateTransaction_failure_counted_twice :
    failingEnv.failRoll > NewPaymentService.successRate
    ∧ (CreateTransaction NewPaymentService sampleRequest failingEnv).2
        = { Success := false
            Message := "Payment gateway temporarily unavailable"
            Data := .nil }
    ∧ NewPaymentService.stats.TotalRequests = 0
    ∧ NewPaymentService.stats.SuccessRequests = 0
    ∧ NewPaymentService.stats.FailureRequests = 0
    ∧ (CreateTransaction NewPaymentService sampleRequest failingEnv).1.stats.TotalRequests = 2
    ∧ (CreateTransaction NewPaymentService sampleRequest failingEnv).1.stats.SuccessRequests = 1
    ∧ (CreateTransaction NewPaymentService sampleRequest failingEnv).1.stats.FailureRequests = 1 := by
  decide!

/-! ## C7: reset -/

/-- C7: from every engine state `ResetData` returns its success envelope; in the state it
leaves, `GetStats` reports every statistics field as zero (the three request counters, the
two transaction counters, the average response time and the success rate) and
`GetTransactionDetail` answers success = false, "Transaction not found" for every
reference. -/
theorem ResetData_clears (s : PaymentService) :
    (ResetData s).2
        = { Success := true, Message := "Mock data reset successfully", Data := .nil }
    ∧ (GetStats (ResetData s).1).2
        = { Success := true
            Message := "Mock server statistics"
            Data := .stats
              { TotalRequests := 0
                SuccessRequests := 0
                FailureRequests := 0
                SuccessRate := 0
                TotalTransactions := 0
                PaidTransactions := 0
                AvgResponseTime := 0 } }
    ∧ ∀ (reference : String) (since : Duration),
        (GetTransactionDetail (ResetData s).1 reference since).2
          = { Success := false, Message := "Transaction not found", Data := .nil } := by
  refine ⟨rfl, ?_, ?_⟩
  · simp [GetStats, ResetData]
  · intro reference since
    simp [GetTransactionDetail, ResetData, Store.get]

/-! ## C8: the success rate -/

theorem Reachable.stats_consistent {s : PaymentService} (h : Reachable s) :
    StatsConsistent s.stats := by
  induction h with
  | init => simp [StatsConsistent, NewPaymentService]
  | @create s req env _ _ ih =>
    obtain ⟨a, b, c, d⟩ := ih
    by_cases hf : env.failRoll > s.successRate
    · obtain ⟨t, u, v, w⟩ := CreateTransaction_counters_of_fail s req env hf
      refine ⟨by omega, by omega, by omega, ?_⟩
      intro h0; omega
    · obtain ⟨t, u, v, w⟩ := CreateTransaction_counters_of_ok s req env hf
      refine ⟨by omega, by omega, by omega, ?_⟩
      intro h0; omega
  | @detail s ref since _ ih =>
    obtain ⟨a, b, c, d⟩ := ih
    obtain ⟨t, u, v⟩ := GetTransactionDetail_counters s ref since
    refine ⟨by omega, by omega, by omega, ?_⟩
    intro h0; omega
  | channels _ ih => exact ih
  | @stats s _ ih =>
    obtain ⟨a, b, c, d⟩ := ih
    by_cases hpos : s.stats.TotalRequests > 0
    · simp only [GetStats, if_pos hpos]
      refine ⟨a, b, c, ?_⟩
      intro h0
      simp only at h0
      omega
    · simp only [GetStats, if_neg hpos]
      exact ⟨a, b, c, d⟩
  | reset _ _ => simp [StatsConsistent, ResetData]
  | @autoPay s ref now _ ih =>
    cases hstored : s.transactions.get ref with
    | none => rw [simulateAutoPayment_of_absent s ref now hstored]; exact ih
    | some r0 =>
      by_cases hst : r0.Status = "UNPAID"
      · rw [simulateAutoPayment_of_unpaid s ref now r0 hstored hst]; exact ih
      · rw [simulateAutoPayment_of_not_unpaid s ref now r0 hstored hst]; exact ih

/-- The `float64` quotient of two integers `0 ≤ a ≤ b`, `0 < b < 2 ^ 53`, is within
`2 ^ (-53)` of the exact quotient. -/
theorem f64Div_ofInt_near (a b : ℤ) (ha : 0 ≤ a) (hab : a ≤ b) (hb : 0 < b)
    (hb53 : b < 2 ^ 53) :
    |f64Div (f64OfInt a) (f64OfInt b) - (a : ℚ) / b| ≤ 1 / 2 ^ 53 := by
  rw [f64OfInt_exact a ha (by omega), f64OfInt_exact b hb.le hb53]
  unfold f64Div
  have hbQ : (0 : ℚ) < b := by exact_mod_cast hb
  rcases eq_or_lt_of_le ha with h0 | hpos
  · subst h0
    simp [f64Round, fpRound]
  have haQ : (0 : ℚ) < a := by exact_mod_cast hpos
  have habQ : (a : ℚ) ≤ b := by exact_mod_cast hab
  have hx : (0 : ℚ) < (a : ℚ) / b := div_pos haQ hbQ
  have hx1 : (a : ℚ) / b ≤ 1 := (div_le_one hbQ).mpr habQ
  obtain ⟨l, u, _⟩ := f64Round_near _ hx
  have hulp := ulp64_le_of_lt ((a : ℚ) / b) 0 hx (by norm_num; linarith) (by norm_num)
  have e : (2 : ℚ) ^ ((0 : ℤ) - 52) = 1 / 2 ^ 52 := by
    rw [show ((0 : ℤ) - 52) = -(52 : ℕ) by norm_num, zpow_neg, zpow_natCast]; norm_num
  rw [e] at hulp
  rw [abs_le]
  constructor <;> norm_num at hulp ⊢ <;> linarith

/-- C8: in every reachable state `GetStats` returns its success envelope carrying the
statistics; the success_rate in it is 0 when total_requests = 0, and when total_requests
> 0 it is the `float64` quotient of success_requests by total_requests, which lies within
2^(-53) of the exact quotient as long as total_requests < 2^53. -/
theorem GetStats_success_rate (s : PaymentService) (h : Reachable s) :
    ∃ m : MockStats,
      (GetStats s).2
        = { Success := true, Message := "Mock server statistics", Data := .stats m }
      ∧ m.TotalRequests = s.stats.TotalRequests
      ∧ m.SuccessRequests = s.stats.SuccessRequests
      ∧ (s.stats.TotalRequests = 0 → m.SuccessRate = 0)
      ∧ (0 < s.stats.TotalRequests →
          m.SuccessRate
            = f64Div (f64OfInt s.stats.SuccessRequests) (f64OfInt s.stats.TotalRequests)
          ∧ (s.stats.TotalRequests < 2 ^ 53 →
              |m.SuccessRate - (s.stats.SuccessRequests : ℚ) / s.stats.TotalRequests|
                ≤ 1 / 2 ^ 53)) := by
  obtain ⟨a, b, c, d⟩ := h.stats_consistent
  by_cases hpos : s.stats.TotalRequests > 0
  · refine ⟨{ s.stats with
              SuccessRate :=
                f64Div (f64OfInt s.stats.SuccessRequests) (f64OfInt s.stats.TotalRequests) },
      by simp only [GetStats, if_pos hpos], rfl, rfl, ?_, ?_⟩
    · intro h0; omega
    · intro _
      refine ⟨rfl, ?_⟩
      intro h53
      exact f64Div_ofInt_near _ _ a (by omega) hpos h53
  · refine ⟨s.stats, by simp only [GetStats, if_neg hpos], rfl, rfl, ?_, ?_⟩
    · intro h0; exact d h0
    · intro h0; omega

/-- C8, witness: the statistics read after one lookup on a fresh service. -/
theorem GetStats_success_rate_witness :
    Reachable stateAfterLookup
    ∧ ∃ m : MockStats,
      (GetStats stateAfterLookup).2
        = { Success := true, Message := "Mock server statistics", Data := .stats m }
      ∧ m.TotalRequests = stateAfterLookup.stats.TotalRequests
      ∧ m.SuccessRequests = stateAfterLookup.stats.SuccessRequests
      ∧ (stateAfterLookup.stats.TotalRequests = 0 → m.SuccessRate = 0)
      ∧ (0 < stateAfterLookup.stats.TotalRequests →
          m.SuccessRate
            = f64Div (f64OfInt stateAfterLookup.stats.SuccessRequests)
                (f64OfInt stateAfterLookup.stats.TotalRequests)
          ∧ (stateAfterLookup.stats.TotalRequests < 2 ^ 53 →
              |m.SuccessRate
                  - (stateAfterLookup.stats.SuccessRequests : ℚ)
                    / stateAfterLookup.stats.TotalRequests|
                ≤ 1 / 2 ^ 53)) :=
  ⟨Reachable.detail _ _ Reachable.init,
    GetStats_success_rate stateAfterLookup (Reachable.detail _ _ Reachable.init)⟩


/-! ## C9: pay codes -/

theorem digitChar_isDigit (m : ℕ) (h : m < 10) : (Nat.digitChar m).isDigit = true := by
  interval_cases m <;> decide

theorem digitChar_ne_zero (m : ℕ) (h0 : 0 < m) (h : m < 10) : Nat.digitChar m ≠ '0' := by
  interval_cases m <;> decide

/-- The decimal digits of a number with exactly `e + 1` digits, as `Nat.toDigitsCore`
produces them when it has enough fuel. -/
theorem toDigitsCore_decimal : ∀ (e fuel n : ℕ) (ds : List Char), n < fuel → 10 ^ e ≤ n →
    n < 10 ^ (e + 1) →
    ∃ (c : Char) (cs : List Char), Nat.toDigitsCore 10 fuel n ds = c :: (cs ++ ds)
      ∧ cs.length = e ∧ c.isDigit = true ∧ c ≠ '0' ∧ ∀ x ∈ cs, x.isDigit = true := by
  intro e
  induction e with
  | zero =>
    intro fuel n ds hf hlo hhi
    obtain ⟨f, rfl⟩ : ∃ f, fuel = f + 1 := ⟨fuel - 1, by omega⟩
    have hn0 : n / 10 = 0 := by omega
    have hmod : n % 10 = n := by omega
    refine ⟨Nat.digitChar n, [], ?_, rfl, digitChar_isDigit n (by omega),
      digitChar_ne_zero n (by omega) (by omega), by simp⟩
    simp [Nat.toDigitsCore, hn0, hmod]
  | succ e ih =>
    intro fuel n ds hf hlo hhi
    obtain ⟨f, rfl⟩ : ∃ f, fuel = f + 1 := ⟨fuel - 1, by omega⟩
    have hpos : 0 < 10 ^ e := by positivity
    have hlo2 : 10 ^ e ≤ n / 10 := by
      rw [Nat.le_div_iff_mul_le (by norm_num)]
      rw [pow_succ] at hlo; exact hlo
    have hhi2 : n / 10 < 10 ^ (e + 1) := by
      rw [Nat.div_lt_iff_lt_mul (by norm_num)]
      rw [pow_succ] at hhi; exact hhi
    have hn0 : n / 10 ≠ 0 := by omega
    obtain ⟨c, cs, hc, hlen, hd, hz, hall⟩ :=
      ih f (n / 10) (Nat.digitChar (n % 10) :: ds) (by omega) hlo2 hhi2
    refine ⟨c, cs ++ [Nat.digitChar (n % 10)], ?_, by simp [hlen], hd, hz, ?_⟩
    · simp [Nat.toDigitsCore, hn0, hc]
    · intro x hx
      rcases List.mem_append.mp hx with h | h
      · exact hall x h
      · rw [List.mem_singleton] at h
        rw [h]
        exact digitChar_isDigit _ (Nat.mod_lt _ (by norm_num))

theorem repr_isDecimalCode (e n : ℕ) (hlo : 10 ^ e ≤ n) (hhi : n < 10 ^ (e + 1)) :
    IsDecimalCode (Nat.repr n) (e + 1) := by
  obtain ⟨c, cs, hc, hlen, hd, hz, hall⟩ :=
    toDigitsCore_decimal e (n + 1) n [] (by omega) hlo hhi
  have hdata : (Nat.repr n).data = c :: cs := by
    simp [Nat.repr, Nat.toDigits, hc, List.asString]
  refine ⟨?_, ?_, ?_⟩
  · rw [String.length, hdata]; simp [hlen]
  · intro x hx
    rw [hdata] at hx
    rcases List.mem_cons.mp hx with h | h
    · rw [h]; exact hd
    · exact hall x h
  · rw [hdata]
    simpa using hz

/-- C9: whatever values below its bound `rand.Intn` returns, `generatePayCode` yields the
empty string for QRIS, exactly 10 decimal digits for BRIVA, BCAVA and MANDIRIVA, exactly 9
decimal digits for ALFAMART and INDOMARET, and exactly 4 decimal digits for every other
method string, never starting with a zero or a sign. -/
theorem generatePayCode_format (intn : ℕ → ℕ) (hintn : ∀ n, 0 < n → intn n < n)
    (method : String) :
    (method = "QRIS" → generatePayCode intn method = "")
    ∧ (method = "BRIVA" ∨ method = "BCAVA" ∨ method = "MANDIRIVA" →
        IsDecimalCode (generatePayCode intn method) 10)
    ∧ (method = "ALFAMART" ∨ method = "INDOMARET" →
        IsDecimalCode (generatePayCode intn method) 9)
    ∧ (method ≠ "QRIS" → method ≠ "BRIVA" → method ≠ "BCAVA" → method ≠ "MANDIRIVA" →
        method ≠ "ALFAMART" → method ≠ "INDOMARET" →
        IsDecimalCode (generatePayCode intn method) 4) := by
  have h10 : IsDecimalCode (Nat.repr (intn 9000000000 + 1000000000)) 10 := by
    have := hintn 9000000000 (by norm_num)
    exact repr_isDecimalCode 9 _ (by norm_num) (by norm_num; omega)
  have h9 : IsDecimalCode (Nat.repr (intn 900000000 + 100000000)) 9 := by
    have := hintn 900000000 (by norm_num)
    exact repr_isDecimalCode 8 _ (by norm_num) (by norm_num; omega)
  have h4 : IsDecimalCode (Nat.repr (intn 9000 + 1000)) 4 := by
    have := hintn 9000 (by norm_num)
    exact repr_isDecimalCode 3 _ (by norm_num) (by norm_num; omega)
  refine ⟨?_, ?_, ?_, ?_⟩
  · intro h; subst h; rfl
  · rintro (h | h | h) <;> subst h <;> exact h10
  · rintro (h | h) <;> subst h <;> exact h9
  · intro a b c d e f
    have hdef : generatePayCode intn method = Nat.repr (intn 9000 + 1000) := by
      unfold generatePayCode
      split <;> simp_all
    rw [hdef]; exact h4

/-- C9, witness: the random source that always returns 0 gives BRIVA the code
"1000000000". -/
theorem generatePayCode_format_witness :
    (∀ n, 0 < n → (fun _ : ℕ => 0) n < n)
    ∧ generatePayCode (fun _ => 0) "BRIVA" = "1000000000"
    ∧ IsDecimalCode (generatePayCode (fun _ => 0) "BRIVA") 10 :=
  ⟨fun _ h => h, by decide,
    (generatePayCode_format (fun _ => 0) (fun _ h => h) "BRIVA").2.1 (Or.inl rfl)⟩


/-! ## C10: lock discipline -/

theorem updateStatsEvents_writesUnderLock (success : Bool) (h : Held) (rest : List Event) :
    writesUnderLock h (updateStatsEvents success ++ rest) = writesUnderLock .none rest := by
  cases success <;> simp [updateStatsEvents, writesUnderLock, Held.after]

/-- The operations other than `GetStats` write only under the write lock, and the
auto-payment performs its lookup, its guard and its writes inside one critical section:
the mutex is taken once, first, and released once, last. -/
theorem writes_exclusive_except_GetStats :
    (∀ (s : PaymentService) (env : CreateEnv),
      writesUnderLock .none (CreateTransactionEvents s env) = true)
    ∧ writesUnderLock .none GetTransactionDetailEvents = true
    ∧ writesUnderLock .none GetPaymentChannelsEvents = true
    ∧ writesUnderLock .none ResetDataEvents = true
    ∧ (∀ success, writesUnderLock .none (updateStatsEvents success) = true)
    ∧ (∀ (s : PaymentService) (reference : String),
        writesUnderLock .none (simulateAutoPaymentEvents s reference) = true
        ∧ accessesUnderLock .none (simulateAutoPaymentEvents s reference) = true
        ∧ acquisitions (simulateAutoPaymentEvents s reference) = 1
        ∧ (simulateAutoPaymentEvents s reference).head? = some .Lock
        ∧ (simulateAutoPaymentEvents s reference).getLast? = some .Unlock) := by
  refine ⟨?_, by decide, by decide, by decide, ?_, ?_⟩
  · intro s env
    unfold CreateTransactionEvents
    split
    · rw [updateStatsEvents_writesUnderLock]
      have := updateStatsEvents_writesUnderLock true .none []
      simpa [writesUnderLock] using this
    · have := updateStatsEvents_writesUnderLock true .none []
      simp only [List.append_nil] at this
      simp [writesUnderLock, Held.after, this]
  · intro success
    cases success <;> decide
  · intro s reference
    unfold simulateAutoPaymentEvents
    cases s.transactions.get reference with
    | none => simp [writesUnderLock, accessesUnderLock, acquisitions, Held.after]
    | some transaction =>
      by_cases h : transaction.Status = "UNPAID"
      · simp [h, writesUnderLock, accessesUnderLock, acquisitions, Held.after]
      · simp [h, writesUnderLock, accessesUnderLock, acquisitions, Held.after]

/-- C10 (code defect): on a state with total_requests > 0 (here: a fresh service after
one lookup) `GetStats` takes the read lock only and, still holding only the read lock,
writes `stats.SuccessRate`; so not every success_rate write is made under the write
lock. -/
theorem GetStats_writes_under_read_lock :
    Reachable stateAfterLookup
    ∧ 0 < stateAfterLookup.stats.TotalRequests
    ∧ GetStatsEvents stateAfterLookup
        = [.RLock, .read "stats.TotalRequests", .read "stats.SuccessRequests",
            .read "stats.TotalRequests", .write "stats.SuccessRate", .RUnlock]
    ∧ writesUnderLock .none (GetStatsEvents stateAfterLookup) = false
    ∧ (GetStats stateAfterLookup).1.stats.SuccessRate ≠ stateAfterLookup.stats.SuccessRate :=
  ⟨Reachable.detail _ _ Reachable.init, by decide, by decide, by decide, by decide!⟩

/-! ## C11: transaction counters -/

theorem Store.get_eq_none_iff (m : Store) (k : String) :
    m.get k = none ↔ k ∉ m.map Prod.fst := by
  induction m with
  | nil => simp [Store.get]
  | cons p rest ih =>
    obtain ⟨k', v⟩ := p
    by_cases h : k' = k
    · simp [Store.get, h]
    · simp [Store.get, h, ih, Ne.symm h]

/-- Assigning to an absent key adds one entry at the end. -/
theorem Store.set_of_absent (m : Store) (k : String) (v : TransactionDetailData)
    (h : m.get k = none) : m.set k v = m ++ [(k, v)] := by
  induction m with
  | nil => rfl
  | cons p rest ih =>
    obtain ⟨k', v'⟩ := p
    by_cases hk : k' = k
    · simp [Store.get, hk] at h
    · simp only [Store.get, if_neg hk] at h
      simp [Store.set, hk, ih h]

/-- Assigning to a present key keeps the keys, hence the number of entries. -/
theorem Store.keys_set_of_present (m : Store) (k : String) (r v : TransactionDetailData)
    (h : m.get k = some r) : (m.set k v).map Prod.fst = m.map Prod.fst := by
  induction m with
  | nil => simp [Store.get] at h
  | cons p rest ih =>
    obtain ⟨k', v'⟩ := p
    by_cases hk : k' = k
    · simp [Store.set, hk]
    · simp only [Store.get, if_neg hk] at h
      simp [Store.set, hk, ih h]

theorem Store.paidCount_append (m : Store) (k : String) (v : TransactionDetailData) :
    Store.paidCount (m ++ [(k, v)])
      = Store.paidCount m + (if v.Status = "PAID" then 1 else 0) := by
  induction m with
  | nil => simp [Store.paidCount]
  | cons p rest ih =>
    obtain ⟨k', v'⟩ := p
    rw [List.cons_append, Store.paidCount, Store.paidCount, ih]
    omega

/-- Replacing a record that is not PAID by a PAID one raises the number of PAID records by
exactly one. -/
theorem Store.paidCount_set_paid (m : Store) (k : String) (r v : TransactionDetailData)
    (h : m.get k = some r) (hr : r.Status ≠ "PAID") (hv : v.Status = "PAID") :
    Store.paidCount (m.set k v) = Store.paidCount m + 1 := by
  induction m with
  | nil => simp [Store.get] at h
  | cons p rest ih =>
    obtain ⟨k', v'⟩ := p
    by_cases hk : k' = k
    · simp only [Store.get, if_pos hk, Option.some.injEq] at h
      subst h
      simp only [Store.set, if_pos hk, Store.paidCount, if_pos hv, if_neg hr]
      omega
    · simp only [Store.get, if_neg hk] at h
      simp only [Store.set, if_neg hk, Store.paidCount, ih h]
      omega

theorem CreateTransaction_transactionCounters_of_ok (s : PaymentService)
    (req : CreateTransactionRequest) (env : CreateEnv) (h : ¬ env.failRoll > s.successRate) :
    (CreateTransaction s req env).1.stats.TotalTransactions = s.stats.TotalTransactions + 1
    ∧ (CreateTransaction s req env).1.stats.PaidTransactions = s.stats.PaidTransactions := by
  unfold CreateTransaction
  rw [if_neg h]
  simp [updateStats]

theorem GetTransactionDetail_eq_updateStats (s : PaymentService) (reference : String)
    (since : Duration) : (GetTransactionDetail s reference since).1 = updateStats s since true := by
  unfold GetTransactionDetail
  split <;> rfl

/-- The three facts from which C11 follows, kept together for the induction: the keys of
the store are pairwise different, total_transactions is the number of entries and
paid_transactions the number of PAID entries. -/
theorem ReachableFresh.counters {s : PaymentService} (h : ReachableFresh s) :
    (s.transactions.map Prod.fst).Nodup
    ∧ s.stats.TotalTransactions = (s.transactions.length : ℤ)
    ∧ s.stats.PaidTransactions = (s.transactions.paidCount : ℤ) := by
  induction h with
  | init => simp [NewPaymentService, Store.paidCount]
  | @createOk s req env _ hroll hfresh ih =>
    obtain ⟨hk, ht, hp⟩ := ih
    obtain ⟨c1, c2⟩ := CreateTransaction_transactionCounters_of_ok s req env hroll
    rw [CreateTransaction_transactions_of_ok s req env hroll,
      Store.set_of_absent _ _ _ hfresh, c1, c2]
    refine ⟨?_, ?_, ?_⟩
    · rw [List.map_append, List.nodup_append]
      refine ⟨hk, by simp, ?_⟩
      intro a ha hb
      simp only [List.map_cons, List.map_nil, List.mem_singleton] at hb
      subst hb
      exact (Store.get_eq_none_iff _ _).mp hfresh ha
    · rw [List.length_append, ht]; simp
    · rw [Store.paidCount_append, hp]; simp
  | @createFail s req env _ hroll ih =>
    rw [CreateTransaction_of_fail s req env hroll]
    exact ih
  | @detail s ref since _ ih =>
    rw [GetTransactionDetail_eq_updateStats]
    exact ih
  | channels _ ih => exact ih
  | @stats s _ ih =>
    obtain ⟨hk, ht, hp⟩ := ih
    by_cases hpos : s.stats.TotalRequests > 0
    · simp only [GetStats, if_pos hpos]
      exact ⟨hk, ht, hp⟩
    · simp only [GetStats, if_neg hpos]
      exact ⟨hk, ht, hp⟩
  | reset _ _ => simp [ResetData, Store.paidCount]
  | @autoPay s ref now _ ih =>
    obtain ⟨hk, ht, hp⟩ := ih
    cases hstored : s.transactions.get ref with
    | none => rw [simulateAutoPayment_of_absent s ref now hstored]; exact ⟨hk, ht, hp⟩
    | some r0 =>
      by_cases hst : r0.Status = "UNPAID"
      · rw [simulateAutoPayment_of_unpaid s ref now r0 hstored hst]
        have hkeys := Store.keys_set_of_present s.transactions ref r0
          { r0 with Status := "PAID", PaidAt := some now, UpdatedAt := now } hstored
        have hlen : (s.transactions.set ref
            { r0 with Status := "PAID", PaidAt := some now, UpdatedAt := now }).length
            = s.transactions.length := by
          have := congrArg List.length hkeys
          simpa using this
        have hcount := Store.paidCount_set_paid s.transactions ref r0
          { r0 with Status := "PAID", PaidAt := some now, UpdatedAt := now } hstored
          (by rw [hst]; decide) rfl
        refine ⟨?_, ?_, ?_⟩
        · simp only [hkeys]; exact hk
        · simp only [hlen]; exact ht
        · simp only [hcount, hp]; push_cast; ring
      · rw [simulateAutoPayment_of_not_unpaid s ref now r0 hstored hst]
        exact ⟨hk, ht, hp⟩

theorem Store.paidCount_le_length (m : Store) : Store.paidCount m ≤ m.length := by
  induction m with
  | nil => simp [Store.paidCount]
  | cons p rest ih =>
    obtain ⟨k, v⟩ := p
    simp only [Store.paidCount, List.length_cons]
    split <;> omega

/-- C11: in every state reachable from `NewPaymentService` by successful creations whose
generated reference is not already in the store, failed creations, lookups, catalogue and
statistics reads, auto-payment firings and resets, the store holds each reference once,
total_transactions equals the number of records in the store and paid_transactions equals
the number of stored records with status PAID; hence paid_transactions is at most
total_transactions. -/
theorem reachableFresh_transaction_counters (s : PaymentService) (h : ReachableFresh s) :
    (s.transactions.map Prod.fst).Nodup
    ∧ s.stats.TotalTransactions = (s.transactions.length : ℤ)
    ∧ s.stats.PaidTransactions = (s.transactions.paidCount : ℤ)
    ∧ s.stats.PaidTransactions ≤ s.stats.TotalTransactions := by
  obtain ⟨hk, ht, hp⟩ := h.counters
  refine ⟨hk, ht, hp, ?_⟩
  rw [ht, hp]
  exact_mod_cast Store.paidCount_le_length s.transactions

theorem reachableFresh_stateAfterPayment : ReachableFresh stateAfterPayment :=
  ReachableFresh.autoPay _ _
    (ReachableFresh.createOk sampleRequest sampleEnv ReachableFresh.init (by decide!) rfl)

/-- C11, witness: a fresh service after one creation and the firing of its auto-payment
holds one record, which is PAID, and both counters are 1. -/
theorem reachableFresh_transaction_counters_witness :
    ReachableFresh stateAfterPayment
    ∧ stateAfterPayment.transactions.length = 1
    ∧ stateAfterPayment.transactions.paidCount = 1
    ∧ (stateAfterPayment.transactions.map Prod.fst).Nodup
    ∧ stateAfterPayment.stats.TotalTransactions = (stateAfterPayment.transactions.length : ℤ)
    ∧ stateAfterPayment.stats.PaidTransactions
        = (stateAfterPayment.transactions.paidCount : ℤ)
    ∧ stateAfterPayment.stats.PaidTransactions ≤ stateAfterPayment.stats.TotalTransactions :=
  ⟨reachableFresh_stateAfterPayment, by decide!, by decide!,
    reachableFresh_transaction_counters stateAfterPayment reachableFresh_stateAfterPayment⟩

/-- Without the freshness condition the count is lost: after the colliding creation of C1
the store holds one record while total_transactions is 2. -/
theorem colliding_creation_transaction_counters :
    (CreateTransaction stateAfterCreate sampleRequest collidingEnv).1.transactions.length = 1
    ∧ (CreateTransaction stateAfterCreate sampleRequest collidingEnv).1.stats.TotalTransactions
        = 2 := by
  decide!

end MockTripay
